import Mathlib

/-!
The generic DAO of godal over a document store.

A shallow embedding of `genericdao.go` and `mongo/genericdao_mongo.go`.

* Go values of type `interface{}` are the inductive `GoVal`; `reflect.Kind` is `Kind`.
* A Go result pair `(value, error)` is a Lean pair whose second component is `Option Error`
  (`none` is the `nil` error), because the code does return a value next to a non-nil error.
* A run-time panic (failed type assertion, nil dereference) is the `Except.error` side of
  `Except Panic`.
* The collaborators that are not part of this repository (the MongoDB driver behind
  `prom.MongoConnect`, `encoding/json`, `reddo`) are parameters: `MongoConnect σ` is the
  driver seen as a state machine over a store of type `σ`, `Ext` holds the pure helpers.
-/

namespace Godal

/-! ## Values -/

/-- Byte sequences (`[]byte`); every element stands for a value below 256. -/
abbrev Bytes := List Nat

/-- The bytes of a Go string, as produced by the conversion `[]byte(s)`. -/
def stringBytes (s : String) : Bytes :=
  s.data.flatMap (fun c => (String.utf8EncodeChar c).map UInt8.toNat)

/-- Errors that the code creates or compares against, and errors handed back by a collaborator. -/
inductive Error where
  /-- The value `godal.GdaoErrorDuplicatedEntry`. -/
  | duplicatedEntry
  /-- The value `mongo.ErrNoDocuments`. -/
  | noDocuments
  /-- The value `mongo.ErrNilDocument`. -/
  | nilDocument
  /-- The error made by `errors.Errorf("cannot convert %v to ...")`. -/
  | cannotConvert (target : String)
  /-- The error made by `errors.Errorf("cannot construct godal.IGenericBo from input %v")`. -/
  | cannotConstruct
  /-- Any other error reported by the driver, `encoding/json` or `reddo`. -/
  | collaborator (code : Nat)
  deriving DecidableEq

/-- Run-time panics. -/
inductive Panic where
  /-- A type assertion `x.(T)` on a value whose dynamic type is not `T`. -/
  | typeAssertion
  /-- A field access through a nil pointer. -/
  | nilDereference
  /-- A panic raised inside a collaborator. -/
  | collaborator
  deriving DecidableEq

/-- The Go types that the code passes around as `reflect.Type`. -/
inductive GoType where
  | bool
  | int
  | uint8
  | float64
  | string
  | iface
  | slice (elem : GoType)
  | map (key val : GoType)
  deriving DecidableEq

/-- Dynamic Go values. `nil` is the nil interface value; `ptr none` is a typed nil pointer;
`iface v` is a variable of interface type, which only occurs as the target of a pointer;
`float m e` is the binary64 value `m * 2 ^ e`. -/
inductive GoVal where
  | nil
  | bool (b : Bool)
  | int (i : Int)
  | float (m e : Int)
  | str (s : String)
  | bytes (b : Bytes)
  | slice (elem : GoType) (xs : List GoVal)
  | mapSI (m : List (String × GoVal))
  | mapInt (m : List (String × Int))
  | mapOther (key val : GoType) (m : List (GoVal × GoVal))
  | ptr (target : Option GoVal)
  | iface (v : GoVal)
  | struct (fields : List (String × GoVal))

/-- A value of type `map[string]interface{}`, as an association list. -/
abbrev GoMap := List (String × GoVal)

/-- A value of type `map[string]int`, as an association list. -/
abbrev SortMap := List (String × Int)

/-- The kinds of `reflect.Kind` that the code distinguishes. -/
inductive Kind where
  | invalid
  | bool
  | int
  | float64
  | string
  | slice
  | map
  | ptr
  | interface
  | struct
  deriving DecidableEq

/-- The loop `for v.Kind() == reflect.Ptr { v = v.Elem() }` of `toMap` and `toSortingMap`.
`Elem` of a nil pointer is the zero `reflect.Value`, here `none`. -/
def derefAll : GoVal → Option GoVal
  | .ptr none => none
  | .ptr (some t) => derefAll t
  | .nil => none
  | v => some v

/-- The kind `v.Kind()` of a `reflect.Value`; the zero value has kind `Invalid`. -/
def kindOf : Option GoVal → Kind
  | none => .invalid
  | some .nil => .invalid
  | some (.bool _) => .bool
  | some (.int _) => .int
  | some (.float _ _) => .float64
  | some (.str _) => .string
  | some (.bytes _) => .slice
  | some (.slice _ _) => .slice
  | some (.mapSI _) => .map
  | some (.mapInt _) => .map
  | some (.mapOther _ _ _) => .map
  | some (.ptr _) => .ptr
  | some (.iface _) => .interface
  | some (.struct _) => .struct

/-- The type `reflect.TypeOf(byte(0))`. -/
def typeOfByte : GoType := .uint8

/-- The type `reflect.TypeOf(t)` for `t := make(map[string]interface{})`. -/
def typeOfMapStringInterface : GoType := .map .string .iface

/-- The type `reflect.TypeOf(t)` for `t := make(map[string]int)`. -/
def typeOfMapStringInt : GoType := .map .string .int

/-- The pure helpers from outside the repository.

* `jsonUnmarshalMap b` is `json.Unmarshal(b, &result)` for `result := make(map[string]interface{})`:
  the final content of `result` (`none` when the text `null` resets it to a nil map) and the error.
* `jsonUnmarshalSorting b` is the same for `result := make(map[string]int)`.
* `reddoToSlice v t` is `reddo.ToSlice(v, t)` and `reddoToMap v t` is `reddo.ToMap(v, t)`. -/
structure Ext where
  jsonUnmarshalMap : Bytes → Option GoMap × Option Error
  jsonUnmarshalSorting : Bytes → Option SortMap × Option Error
  reddoToSlice : GoVal → GoType → Except Panic (GoVal × Option Error)
  reddoToMap : GoVal → GoType → Except Panic (GoVal × Option Error)

/-! ## Filter and sorting normalization -/

/-- The function `toMap` of `genericdao_mongo.go`. -/
def toMap (E : Ext) (input : GoVal) : Except Panic (Option GoMap × Option Error) :=
  match input with
  | .nil => .ok (none, none)
  | _ =>
    match derefAll input with
    | some (.str s) => .ok (E.jsonUnmarshalMap (stringBytes s))
    | some (.bytes b) =>
      match E.reddoToSlice (.bytes b) typeOfByte with
      | .error p => .error p
      | .ok (_, some err) => .ok (none, some err)
      | .ok (.bytes t, none) => .ok (E.jsonUnmarshalMap t)
      | .ok (_, none) => .error .typeAssertion
    | some (.slice elem xs) =>
      match E.reddoToSlice (.slice elem xs) typeOfByte with
      | .error p => .error p
      | .ok (_, some err) => .ok (none, some err)
      | .ok (.bytes t, none) => .ok (E.jsonUnmarshalMap t)
      | .ok (_, none) => .error .typeAssertion
    | some (.mapSI m) =>
      match E.reddoToMap (.mapSI m) typeOfMapStringInterface with
      | .error p => .error p
      | .ok (.mapSI r, err) => .ok (some r, err)
      | .ok (_, _) => .error .typeAssertion
    | some (.mapInt m) =>
      match E.reddoToMap (.mapInt m) typeOfMapStringInterface with
      | .error p => .error p
      | .ok (.mapSI r, err) => .ok (some r, err)
      | .ok (_, _) => .error .typeAssertion
    | some (.mapOther k v m) =>
      match E.reddoToMap (.mapOther k v m) typeOfMapStringInterface with
      | .error p => .error p
      | .ok (.mapSI r, err) => .ok (some r, err)
      | .ok (_, _) => .error .typeAssertion
    | _ => .ok (none, some (.cannotConvert "map[string]interface\x7b\x7d"))

/-- The function `toSortingMap` of `genericdao_mongo.go`. -/
def toSortingMap (E : Ext) (input : GoVal) : Except Panic (Option SortMap × Option Error) :=
  match input with
  | .nil => .ok (none, none)
  | _ =>
    match derefAll input with
    | some (.str s) => .ok (E.jsonUnmarshalSorting (stringBytes s))
    | some (.bytes b) =>
      match E.reddoToSlice (.bytes b) typeOfByte with
      | .error p => .error p
      | .ok (_, some err) => .ok (none, some err)
      | .ok (.bytes t, none) => .ok (E.jsonUnmarshalSorting t)
      | .ok (_, none) => .error .typeAssertion
    | some (.slice elem xs) =>
      match E.reddoToSlice (.slice elem xs) typeOfByte with
      | .error p => .error p
      | .ok (_, some err) => .ok (none, some err)
      | .ok (.bytes t, none) => .ok (E.jsonUnmarshalSorting t)
      | .ok (_, none) => .error .typeAssertion
    | some (.mapSI m) =>
      match E.reddoToMap (.mapSI m) typeOfMapStringInt with
      | .error p => .error p
      | .ok (.mapInt r, err) => .ok (some r, err)
      | .ok (_, _) => .error .typeAssertion
    | some (.mapInt m) =>
      match E.reddoToMap (.mapInt m) typeOfMapStringInt with
      | .error p => .error p
      | .ok (.mapInt r, err) => .ok (some r, err)
      | .ok (_, _) => .error .typeAssertion
    | some (.mapOther k v m) =>
      match E.reddoToMap (.mapOther k v m) typeOfMapStringInt with
      | .error p => .error p
      | .ok (.mapInt r, err) => .ok (some r, err)
      | .ok (_, _) => .error .typeAssertion
    | _ => .ok (none, some (.cannotConvert "map[string]int"))

/-! ## Business objects and row mappers -/

/-- Modelled from the spec: the type `GenericBo` (`genericbo.go` is not among the sources).
A generic business object is a mapping from attribute name to value. -/
structure GenericBo where
  attrs : List (String × GoVal)

/-- A value of the interface type `godal.IGenericBo`; `none` is the nil interface. -/
abbrev IGenericBo := Option GenericBo

/-- The interface `IRowMapper` of `genericdao.go`. -/
structure IRowMapper where
  ToRow : String → IGenericBo → GoVal × Option Error
  ToBo : String → GoVal → IGenericBo × Option Error
  ColumnsList : String → List String

/-! ## The driver -/

/-- What the code observes of a `*mongo.SingleResult`: `err` is `result.Err()`, `decodeBytes`
is the error of `result.DecodeBytes()`, and `raw` is `MongoConnect.DecodeSingleResultRaw(result)`,
the document as JSON text (`none` is the nil slice). -/
structure SingleResult where
  err : Option Error
  decodeBytes : Option Error
  raw : Option Bytes × Option Error

/-- The fields of `options.FindOptions` that `MongoFetchMany` may set; `none` is unset. -/
structure FindOptions where
  sort : Option SortMap
  limit : Option Int
  skip : Option Int

/-- What `MongoConnect.DecodeResultCallbackRaw` hands to its callback, document by document:
the JSON text of the document and the decoding error. -/
abbrev Cursor := List (Bytes × Option Error)

/-- The driver commands used by the DAO, over a store of type `σ`. Each command maps the store
to its reply and the store afterwards.

* `findOne`, `insertOne`, `deleteMany`, `find` are the collection methods `FindOne`, `InsertOne`,
  `DeleteMany` (reply: `DeletedCount` of the result, `none` for a nil result) and `Find`;
* `findOneAndReplace s c f doc upsert` is `FindOneAndReplace` with the option `Upsert: &upsert`;
* `startSession` and `endSession` are the two ends of `Client.UseSession`;
  `startTransaction` and `commitTransaction` are the methods of the session context. -/
structure MongoConnect (σ : Type) where
  findOne : σ → String → Option GoMap → SingleResult × σ
  insertOne : σ → String → GoVal → Option Error × σ
  findOneAndReplace : σ → String → Option GoMap → GoVal → Bool → SingleResult × σ
  deleteMany : σ → String → Option GoMap → (Option Int × Option Error) × σ
  find : σ → String → Option GoMap → FindOptions → (Option Cursor × Option Error) × σ
  startSession : σ → Option Error × σ
  startTransaction : σ → Option Error × σ
  commitTransaction : σ → Option Error × σ
  endSession : σ → σ

/-- The number of bits of the Go type `int` (a 64-bit platform). -/
def intBits : Nat := 64

/-- The conversion `int(x)` of an `int64`: the value is wrapped into the signed range of `int`. -/
def intOfInt64 (x : Int) : Int :=
  (x + 2 ^ (intBits - 1)) % 2 ^ intBits - 2 ^ (intBits - 1)

/-- The conversion `int64(x)` of an `int`: a widening, so the value is kept. -/
def int64OfInt (x : Int) : Int := x

/-! ## The DAO -/

/-- The struct `GenericDaoMongo` together with what it embeds: `GdaoCreateFilter` comes from the
`IGenericDao` stored in the `AbstractGenericDao`, `rowMapper` is `GetRowMapper()`. -/
structure GenericDaoMongo (σ : Type) where
  mongoConnect : MongoConnect σ
  ext : Ext
  rowMapper : IRowMapper
  GdaoCreateFilter : String → IGenericBo → GoVal
  txMode : Bool

variable {σ : Type}

/-- The method `GenericDaoMongo.MongoDeleteMany`. -/
def GenericDaoMongo.MongoDeleteMany (dao : GenericDaoMongo σ) (collectionName : String)
    (filter : Option GoMap) (s : σ) : (Option Int × Option Error) × σ :=
  dao.mongoConnect.deleteMany s collectionName filter

/-- The method `GenericDaoMongo.MongoFetchOne`. -/
def GenericDaoMongo.MongoFetchOne (dao : GenericDaoMongo σ) (collectionName : String)
    (filter : Option GoMap) (s : σ) : SingleResult × σ :=
  dao.mongoConnect.findOne s collectionName filter

/-- The options that `MongoFetchMany` builds before it calls `Find`. -/
def findOptionsOf (sorting : Option SortMap) (startOffset numItems : Int) : FindOptions where
  sort :=
    match sorting with
    | none => none
    | some m => if m.length > 0 then some m else none
  limit := if numItems > 0 then some (int64OfInt numItems) else none
  skip := if startOffset > 0 then some (int64OfInt startOffset) else none

/-- The method `GenericDaoMongo.MongoFetchMany`. -/
def GenericDaoMongo.MongoFetchMany (dao : GenericDaoMongo σ) (collectionName : String)
    (filter : Option GoMap) (sorting : Option SortMap) (startOffset numItems : Int) (s : σ) :
    (Option Cursor × Option Error) × σ :=
  dao.mongoConnect.find s collectionName filter (findOptionsOf sorting startOffset numItems)

/-- The method `GenericDaoMongo.MongoInsertOne`. -/
def GenericDaoMongo.MongoInsertOne (dao : GenericDaoMongo σ) (collectionName : String)
    (doc : GoVal) (s : σ) : Option Error × σ :=
  dao.mongoConnect.insertOne s collectionName doc

/-- The method `GenericDaoMongo.MongoUpdateOne`: a replace with `upsert := false`. -/
def GenericDaoMongo.MongoUpdateOne (dao : GenericDaoMongo σ) (collectionName : String)
    (filter : Option GoMap) (doc : GoVal) (s : σ) : SingleResult × σ :=
  dao.mongoConnect.findOneAndReplace s collectionName filter doc false

/-- The method `GenericDaoMongo.MongoSaveOne`: a replace with `upsert := true`. -/
def GenericDaoMongo.MongoSaveOne (dao : GenericDaoMongo σ) (collectionName : String)
    (filter : Option GoMap) (doc : GoVal) (s : σ) : SingleResult × σ :=
  dao.mongoConnect.findOneAndReplace s collectionName filter doc true

/-- The method `GenericDaoMongo.GdaoDeleteMany`. -/
def GenericDaoMongo.GdaoDeleteMany (dao : GenericDaoMongo σ) (storageId : String)
    (filter : GoVal) (s : σ) : Except Panic ((Int × Option Error) × σ) :=
  match toMap dao.ext filter with
  | .error p => .error p
  | .ok (_, some err) => .ok ((0, some err), s)
  | .ok (f, none) =>
    match dao.MongoDeleteMany storageId f s with
    | ((_, some err), s1) => .ok ((0, some err), s1)
    | ((some deletedCount, none), s1) => .ok ((intOfInt64 deletedCount, none), s1)
    | ((none, none), _) => .error .nilDereference

/-- The method `GenericDaoMongo.GdaoFetchOne`. -/
def GenericDaoMongo.GdaoFetchOne (dao : GenericDaoMongo σ) (storageId : String)
    (filter : GoVal) (s : σ) : Except Panic ((IGenericBo × Option Error) × σ) :=
  match toMap dao.ext filter with
  | .error p => .error p
  | .ok (_, some err) => .ok ((none, some err), s)
  | .ok (f, none) =>
    match dao.MongoFetchOne storageId f s with
    | (dbResult, s1) =>
      match dbResult.raw with
      | (_, some err) => .ok ((none, some err), s1)
      | (none, none) => .ok ((none, none), s1)
      | (some jsData, none) => .ok (dao.rowMapper.ToBo storageId (.bytes jsData), s1)

/-- The callback loop of `GdaoFetchMany`: `acc` is `resultBoList`, the second component of the
result is `resultError`; the loop stops at the first error. -/
def fetchManyLoop (rowMapper : IRowMapper) (storageId : String) :
    Cursor → List IGenericBo → List IGenericBo × Option Error
  | [], acc => (acc, none)
  | (_, some err) :: _, acc => (acc, some err)
  | (doc, none) :: rest, acc =>
    match rowMapper.ToBo storageId (.bytes doc) with
    | (_, some e) => (acc, some e)
    | (bo, none) => fetchManyLoop rowMapper storageId rest (acc ++ [bo])

/-- The method `GenericDaoMongo.GdaoFetchMany`. -/
def GenericDaoMongo.GdaoFetchMany (dao : GenericDaoMongo σ) (storageId : String)
    (filter sorting : GoVal) (startOffset numItems : Int) (s : σ) :
    Except Panic ((List IGenericBo × Option Error) × σ) :=
  match toMap dao.ext filter with
  | .error p => .error p
  | .ok (_, some err) => .ok (([], some err), s)
  | .ok (f, none) =>
    match toSortingMap dao.ext sorting with
    | .error p => .error p
    | .ok (_, some err) => .ok (([], some err), s)
    | .ok (srt, none) =>
      match dao.MongoFetchMany storageId f srt startOffset numItems s with
      | ((_, some err), s1) => .ok (([], some err), s1)
      | ((none, none), _) => .error .nilDereference
      | ((some cursor, none), s1) => .ok (fetchManyLoop dao.rowMapper storageId cursor [], s1)

/-- The method `GenericDaoMongo.insertIfNotExist`. -/
def GenericDaoMongo.insertIfNotExist (dao : GenericDaoMongo σ) (storageId : String)
    (bo : IGenericBo) (s : σ) : Except Panic ((Bool × Option Error) × σ) :=
  match toMap dao.ext (dao.GdaoCreateFilter storageId bo) with
  | .error p => .error p
  | .ok (_, some err) => .ok ((false, some err), s)
  | .ok (filter, none) =>
    match dao.MongoFetchOne storageId filter s with
    | (row, s1) =>
      match row.raw with
      | (_, some err) => .ok ((false, some err), s1)
      | (some _, none) => .ok ((false, none), s1)
      | (none, none) =>
        match dao.rowMapper.ToRow storageId bo with
        | (_, some err) => .ok ((false, some err), s1)
        | (doc, none) =>
          match dao.MongoInsertOne storageId doc s1 with
          | (some err, s2) => .ok ((false, some err), s2)
          | (none, s2) => .ok ((true, none), s2)

/-- The method `GenericDaoMongo.GdaoCreate`. -/
def GenericDaoMongo.GdaoCreate (dao : GenericDaoMongo σ) (storageId : String)
    (bo : IGenericBo) (s : σ) : Except Panic ((Int × Option Error) × σ) :=
  if dao.txMode then
    match dao.mongoConnect.startSession s with
    | (some err, s1) => .ok ((0, some err), s1)
    | (none, s1) =>
      match dao.mongoConnect.startTransaction s1 with
      | (some err, s2) => .ok ((0, some err), dao.mongoConnect.endSession s2)
      | (none, s2) =>
        match dao.insertIfNotExist storageId bo s2 with
        | .error p => .error p
        | .ok ((_, some err), s3) => .ok ((0, some err), dao.mongoConnect.endSession s3)
        | .ok ((result, none), s3) =>
          match dao.mongoConnect.commitTransaction s3 with
          | (err, s4) => .ok ((if result then 1 else 0, err), dao.mongoConnect.endSession s4)
  else
    match dao.insertIfNotExist storageId bo s with
    | .error p => .error p
    | .ok ((_, some err), s1) => .ok ((0, some err), s1)
    | .ok ((true, none), s1) => .ok ((1, none), s1)
    | .ok ((false, none), s1) => .ok ((0, none), s1)

/-- The method `GenericDaoMongo.GdaoUpdate`. -/
def GenericDaoMongo.GdaoUpdate (dao : GenericDaoMongo σ) (storageId : String)
    (bo : IGenericBo) (s : σ) : Except Panic ((Int × Option Error) × σ) :=
  match dao.rowMapper.ToRow storageId bo with
  | (_, some err) => .ok ((0, some err), s)
  | (doc, none) =>
    match toMap dao.ext (dao.GdaoCreateFilter storageId bo) with
    | .error p => .error p
    | .ok (_, some err) => .ok ((0, some err), s)
    | .ok (filter, none) =>
      match dao.MongoUpdateOne storageId filter doc s with
      | (result, s1) =>
        match result.err with
        | some err => .ok ((0, some err), s1)
        | none =>
          if result.decodeBytes = some .noDocuments then .ok ((0, none), s1)
          else .ok ((1, none), s1)

/-- The method `GenericDaoMongo.GdaoSave`. -/
def GenericDaoMongo.GdaoSave (dao : GenericDaoMongo σ) (storageId : String)
    (bo : IGenericBo) (s : σ) : Except Panic ((Int × Option Error) × σ) :=
  match dao.rowMapper.ToRow storageId bo with
  | (_, some err) => .ok ((0, some err), s)
  | (doc, none) =>
    match toMap dao.ext (dao.GdaoCreateFilter storageId bo) with
    | .error p => .error p
    | .ok (_, some err) => .ok ((0, some err), s)
    | .ok (filter, none) =>
      match dao.MongoSaveOne storageId filter doc s with
      | (result, s1) => .ok ((1, result.err), s1)

/-! ## Method resolution through the embedded values -/

/-- The methods of the interface `IGenericDao`. -/
inductive DaoMethod where
  | GdaoCreateFilter
  | GdaoDelete
  | GdaoDeleteMany
  | GdaoFetchOne
  | GdaoFetchMany
  | GdaoCreate
  | GdaoUpdate
  | GdaoSave
  deriving DecidableEq

/-- The three values chained by `NewGenericDaoMongo(conn, NewAbstractGenericDao(self))`: the
application DAO `self` (a struct that embeds `*GenericDaoMongo`, as in the examples), the
`GenericDaoMongo` and the `AbstractGenericDao`. -/
inductive DaoLayer where
  | self
  | genericDaoMongo
  | abstractGenericDao
  deriving DecidableEq

/-- The methods of `IGenericDao` for which a type has a `func` of its own in the source.
`GenericDaoMongo` declares six of them; `AbstractGenericDao` declares only `GetRowMapper` and
`SetRowMapper`, none of the interface; `selfDeclares` lists those of the application DAO. -/
def declares (selfDeclares : DaoMethod → Bool) : DaoLayer → DaoMethod → Bool
  | .self, m => selfDeclares m
  | .genericDaoMongo, .GdaoDeleteMany => true
  | .genericDaoMongo, .GdaoFetchOne => true
  | .genericDaoMongo, .GdaoFetchMany => true
  | .genericDaoMongo, .GdaoCreate => true
  | .genericDaoMongo, .GdaoUpdate => true
  | .genericDaoMongo, .GdaoSave => true
  | .genericDaoMongo, _ => false
  | .abstractGenericDao, _ => false

/-- The embedded value that a method without a body of its own is promoted from:
`*GenericDaoMongo` in the application DAO, `*godal.AbstractGenericDao` in `GenericDaoMongo`,
and the interface field `IGenericDao` of `AbstractGenericDao`, which holds `self`. -/
def embedded : DaoLayer → DaoLayer
  | .self => .genericDaoMongo
  | .genericDaoMongo => .abstractGenericDao
  | .abstractGenericDao => .self

/-- The layer whose body runs when `method` is called on `layer`, following promoted methods for
at most `fuel` steps; `none` when no body has been reached by then. -/
def resolve (selfDeclares : DaoMethod → Bool) : Nat → DaoLayer → DaoMethod → Option DaoLayer
  | 0, _, _ => none
  | fuel + 1, layer, method =>
    if declares selfDeclares layer method then some layer
    else resolve selfDeclares fuel (embedded layer) method

/-! ## A reference driver

An in-memory document store with the behaviour of the MongoDB commands that the DAO relies on.
The query language is a parameter. -/

/-- The query semantics of the reference driver: `satisfies f d` tells whether document `d`
satisfies filter `f` (`none` is the nil filter), `encode d` is the JSON text of `d`, and
`before m a b` tells whether `a` is ordered before `b` under the sort specification `m`. -/
structure QuerySemantics where
  satisfies : Option GoMap → GoVal → Bool
  encode : GoVal → Bytes
  before : SortMap → GoVal → GoVal → Bool

/-- The store of the reference driver: the documents of all collections in insertion order,
each with the name of its collection. -/
abbrev MemStore := List (String × GoVal)

/-- The entries of `collectionName` selected by `filter`. -/
def selects (Q : QuerySemantics) (collectionName : String) (filter : Option GoMap)
    (e : String × GoVal) : Bool :=
  e.1 == collectionName && Q.satisfies filter e.2

/-- The result that carries the document `d`. -/
def foundResult (Q : QuerySemantics) (d : GoVal) : SingleResult where
  err := none
  decodeBytes := none
  raw := (some (Q.encode d), none)

/-- The result of a command that found no document. `Err()` is nil and `DecodeBytes()` reports
`ErrNoDocuments`: the driver behaviour that `GdaoUpdate` is written against, since it tests for
`ErrNoDocuments` only after `Err()` was nil. `DecodeSingleResultRaw` gives `(nil, nil)`. -/
def noDocumentResult : SingleResult where
  err := none
  decodeBytes := some .noDocuments
  raw := (none, none)

/-- The result of a command that failed with `e`. -/
def failedResult (e : Error) : SingleResult where
  err := some e
  decodeBytes := some e
  raw := (none, some e)

/-- Replace the document of the first entry that satisfies `p`, if there is one. -/
def replaceFirst (p : String × GoVal → Bool) (doc : GoVal) : MemStore → MemStore
  | [] => []
  | e :: rest => if p e then (e.1, doc) :: rest else e :: replaceFirst p doc rest

/-- The documents that `Find` returns: the selected ones, sorted when a sort is set, without the
first `skip` ones when a skip is set, and at most `limit` of them when a limit is set. -/
def memFindDocs (Q : QuerySemantics) (s : MemStore) (collectionName : String)
    (filter : Option GoMap) (opt : FindOptions) : List GoVal :=
  let docs := (s.filter (selects Q collectionName filter)).map (fun e => e.2)
  let sorted :=
    match opt.sort with
    | none => docs
    | some m => docs.insertionSort (fun a b => Q.before m a b = true)
  let skipped :=
    match opt.skip with
    | none => sorted
    | some k => sorted.drop k.toNat
  match opt.limit with
  | none => skipped
  | some n => skipped.take n.toNat

/-- The reference driver. It never fails, except that `InsertOne` and `FindOneAndReplace` reject
a nil document with `ErrNilDocument`; sessions and transactions have no effect on the store. -/
def memConnect (Q : QuerySemantics) : MongoConnect MemStore where
  findOne s c f :=
    match s.find? (selects Q c f) with
    | some e => (foundResult Q e.2, s)
    | none => (noDocumentResult, s)
  insertOne s c doc :=
    match doc with
    | .nil => (some .nilDocument, s)
    | d => (none, s ++ [(c, d)])
  findOneAndReplace s c f doc upsert :=
    match doc with
    | .nil => (failedResult .nilDocument, s)
    | d =>
      match s.find? (selects Q c f) with
      | some e => (foundResult Q e.2, replaceFirst (selects Q c f) d s)
      | none => (noDocumentResult, if upsert then s ++ [(c, d)] else s)
  deleteMany s c f :=
    ((some ((s.filter (selects Q c f)).length : Int), none),
      s.filter (fun e => !selects Q c f e))
  find s c f opt := ((some ((memFindDocs Q s c f opt).map (fun d => (Q.encode d, none))), none), s)
  startSession s := (none, s)
  startTransaction s := (none, s)
  commitTransaction s := (none, s)
  endSession s := s

/-- The documents of a collection that a filter selects, in the order in which a query with the
sort specification `sorting` returns them when neither skip nor limit is set. -/
def selectedDocs (Q : QuerySemantics) (s : MemStore) (collectionName : String)
    (filter : Option GoMap) (sorting : Option SortMap) : List GoVal :=
  memFindDocs Q s collectionName filter ⟨(findOptionsOf sorting 0 0).sort, none, none⟩

/-- A driver on which every command fails with `e` and leaves the store as it is. -/
def failingConnect (e : Error) : MongoConnect MemStore where
  findOne s _ _ := (failedResult e, s)
  insertOne s _ _ := (some e, s)
  findOneAndReplace s _ _ _ _ := (failedResult e, s)
  deleteMany s _ _ := ((none, some e), s)
  find s _ _ _ := ((none, some e), s)
  startSession s := (some e, s)
  startTransaction s := (some e, s)
  commitTransaction s := (some e, s)
  endSession s := s

/-! ## JSON

The documents of `encoding/json` as trees. `jsonOfGo` is the value-to-document half of
`json.Marshal`, `goOfJson` is the document-to-value half of `json.Unmarshal` into an
`interface{}`. The text of a document is left to `JsonText`. -/

/-- JSON documents. A number literal is identified by the binary64 value `m * 2 ^ e` that
`encoding/json` reads from it. -/
inductive Json where
  | null
  | bool (b : Bool)
  | num (m e : Int)
  | str (s : String)
  | arr (xs : List Json)
  | obj (es : List (String × Json))

/-- The number of binary digits of `n`, for numbers of at most `fuel` digits. -/
def bitLength : Nat → Nat → Nat
  | 0, _ => 0
  | fuel + 1, n => if n = 0 then 0 else bitLength fuel (n / 2) + 1

/-- The conversion `float64(i)` of an integer of at most 64 bits: exact up to `2 ^ 53` in
magnitude, otherwise rounded to 53 significant bits, ties to the even mantissa. -/
def float64OfInt (i : Int) : GoVal :=
  let n := i.natAbs
  if n ≤ 2 ^ 53 then .float i 0
  else
    let sh := bitLength 64 n - 53
    let q := n / 2 ^ sh
    let r := n % 2 ^ sh
    let half := 2 ^ (sh - 1)
    let q1 := if r > half ∨ (r = half ∧ q % 2 = 1) then q + 1 else q
    .float (if i < 0 then -(q1 : Int) else (q1 : Int)) sh

/-- The number literal that is printed for the integer `i`, as `encoding/json` reads it back. -/
def jsonOfInt (i : Int) : Json :=
  match float64OfInt i with
  | .float m e => .num m e
  | _ => .null

/-- One character of the standard base64 alphabet. -/
def base64Char (n : Nat) : Char :=
  if n < 26 then Char.ofNat (65 + n)
  else if n < 52 then Char.ofNat (97 + (n - 26))
  else if n < 62 then Char.ofNat (48 + (n - 52))
  else if n = 62 then '+'
  else '/'

/-- The standard base64 encoding with padding, which `json.Marshal` uses for a `[]byte`. -/
def base64 : Bytes → List Char
  | a :: b :: c :: rest =>
    base64Char (a / 4) :: base64Char (a % 4 * 16 + b / 16) ::
      base64Char (b % 16 * 4 + c / 64) :: base64Char (c % 64) :: base64 rest
  | [a, b] =>
    [base64Char (a / 4), base64Char (a % 4 * 16 + b / 16), base64Char (b % 16 * 4), '=']
  | [a] => [base64Char (a / 4), base64Char (a % 4 * 16), '=', '=']
  | [] => []

/-- The entries of a `map[string]int` as the members of a JSON object. -/
def jsonOfIntEntries : List (String × Int) → List (String × Json)
  | [] => []
  | (k, i) :: rest => (k, jsonOfInt i) :: jsonOfIntEntries rest

mutual
/-- The document that `json.Marshal` writes for a value; `none` when the value is not supported
(`json.UnsupportedTypeError`). A nil interface and a nil pointer give `null`, a pointer and an
interface variable give the document of their content, a `[]byte` gives its base64 string, a
struct gives the object of its fields. Of the maps with other key and value types only those
with string keys are covered. The members of an object are kept in the order of the association
list. -/
def jsonOfGo : GoVal → Option Json
  | .nil => some .null
  | .bool b => some (.bool b)
  | .int i => some (jsonOfInt i)
  | .float m e => some (.num m e)
  | .str s => some (.str s)
  | .bytes b => some (.str (String.mk (base64 b)))
  | .slice _ xs => (jsonOfGoList xs).map .arr
  | .mapSI m => (jsonOfGoEntries m).map .obj
  | .mapInt m => some (.obj (jsonOfIntEntries m))
  | .mapOther _ _ m => (jsonOfGoKeyed m).map .obj
  | .ptr none => some .null
  | .ptr (some t) => jsonOfGo t
  | .iface v => jsonOfGo v
  | .struct fields => (jsonOfGoEntries fields).map .obj
/-- The documents of the elements of a slice. -/
def jsonOfGoList : List GoVal → Option (List Json)
  | [] => some []
  | x :: xs =>
    match jsonOfGo x, jsonOfGoList xs with
    | some j, some js => some (j :: js)
    | _, _ => none
/-- The members for the entries of a map with string keys. -/
def jsonOfGoEntries : List (String × GoVal) → Option (List (String × Json))
  | [] => some []
  | (k, x) :: xs =>
    match jsonOfGo x, jsonOfGoEntries xs with
    | some j, some js => some ((k, j) :: js)
    | _, _ => none
/-- The members for the entries of a map whose keys are given as values. -/
def jsonOfGoKeyed : List (GoVal × GoVal) → Option (List (String × Json))
  | [] => some []
  | (.str k, x) :: xs =>
    match jsonOfGo x, jsonOfGoKeyed xs with
    | some j, some js => some ((k, j) :: js)
    | _, _ => none
  | _ :: _ => none
end

mutual
/-- The value that `json.Unmarshal` stores into an `interface{}` for a document: `nil`, `bool`,
`float64`, `string`, `[]interface{}` and `map[string]interface{}`. -/
def goOfJson : Json → GoVal
  | .null => .nil
  | .bool b => .bool b
  | .num m e => .float m e
  | .str s => .str s
  | .arr xs => .slice .iface (goOfJsonList xs)
  | .obj es => .mapSI (goOfJsonEntries es)
/-- The values of the elements of an array. -/
def goOfJsonList : List Json → List GoVal
  | [] => []
  | x :: xs => goOfJson x :: goOfJsonList xs
/-- The entries of the members of an object. -/
def goOfJsonEntries : List (String × Json) → List (String × GoVal)
  | [] => []
  | (k, x) :: xs => (k, goOfJson x) :: goOfJsonEntries xs
end

mutual
/-- The coercion of the numbers of a value to the number type of JSON: an integer `i` becomes
`float64(i)`, a slice becomes a `[]interface{}` of the coerced elements, a map keeps its keys
with the coerced values; every other value is kept. -/
def jsonCoerce : GoVal → GoVal
  | .int i => float64OfInt i
  | .slice _ xs => .slice .iface (jsonCoerceList xs)
  | .mapSI m => .mapSI (jsonCoerceEntries m)
  | v => v
/-- The coercion of the elements of a slice. -/
def jsonCoerceList : List GoVal → List GoVal
  | [] => []
  | x :: xs => jsonCoerce x :: jsonCoerceList xs
/-- The coercion of the values of a map. -/
def jsonCoerceEntries : List (String × GoVal) → List (String × GoVal)
  | [] => []
  | (k, x) :: xs => (k, jsonCoerce x) :: jsonCoerceEntries xs
end

mutual
/-- The values of the data model of the spec: null, boolean, number (integer or floating),
string, ordered sequence and nested mapping. -/
def specValue : GoVal → Bool
  | .nil => true
  | .bool _ => true
  | .int _ => true
  | .float _ _ => true
  | .str _ => true
  | .slice _ xs => specValueList xs
  | .mapSI m => specValueEntries m
  | _ => false
/-- All elements are values of the data model. -/
def specValueList : List GoVal → Bool
  | [] => true
  | x :: xs => specValue x && specValueList xs
/-- All values of the entries are values of the data model. -/
def specValueEntries : List (String × GoVal) → Bool
  | [] => true
  | (_, x) :: xs => specValue x && specValueEntries xs
end

/-- The text side of `encoding/json`: `print j` is the text written for the document `j`, and
`parse b` is the document read from the text `b`, `none` when `b` is not well-formed JSON. That a
written text is read back as the same document is not part of the structure: the theorems that
need it say so. The decoders that `toMap` and `toSortingMap` use stay the fields of `Ext`. -/
structure JsonText where
  print : Json → Bytes
  parse : Bytes → Option Json

/-- The error `*json.SyntaxError`. -/
def jsonSyntaxError : Error := .collaborator 100

/-- The error `*json.UnmarshalTypeError`. -/
def jsonTypeError : Error := .collaborator 101

/-- The error `*json.UnsupportedTypeError`. -/
def jsonUnsupportedTypeError : Error := .collaborator 102

/-- The call `json.Marshal(v)`. -/
def jsonMarshal (T : JsonText) (v : GoVal) : Bytes × Option Error :=
  match jsonOfGo v with
  | some j => (T.print j, none)
  | none => ([], some jsonUnsupportedTypeError)

/-- The call `json.Unmarshal(b, &result)` for a `result` of type `map[string]interface{}` that
holds `current`: the content of `result` afterwards and the error. An object sets its members, the
text `null` and every failure leave `result` as it is. -/
def jsonUnmarshalToMap (T : JsonText) (b : Bytes) (current : GoMap) : GoMap × Option Error :=
  match T.parse b with
  | none => (current, some jsonSyntaxError)
  | some (.obj es) => (current ++ goOfJsonEntries es, none)
  | some .null => (current, none)
  | some _ => (current, some jsonTypeError)

/-! ## The generic business object -/

/-- Modelled from the spec: the constructor `NewGenericBo` (`genericbo.go` is not among the
sources). A GBO is created empty. -/
def NewGenericBo : GenericBo := ⟨[]⟩

/-- Modelled from the spec: the method `GboToJson` (`genericbo.go` is not among the sources).
It serializes the attribute mapping to JSON. -/
def GenericBo.GboToJson (T : JsonText) (bo : GenericBo) : Bytes × Option Error :=
  jsonMarshal T (.mapSI bo.attrs)

/-- Modelled from the spec: the method `GboFromJson` (`genericbo.go` is not among the sources).
It parses JSON into the attribute mapping and fails on malformed JSON; the result is the BO
afterwards, which is left as it was on failure, and the error. A text that is well-formed but
not an object has no attribute mapping and is a type error. -/
def GenericBo.GboFromJson (T : JsonText) (bo : GenericBo) (js : Bytes) :
    GenericBo × Option Error :=
  match T.parse js with
  | none => (bo, some jsonSyntaxError)
  | some (.obj es) => (⟨goOfJsonEntries es⟩, none)
  | some _ => (bo, some jsonTypeError)

/-- Modelled from the spec: the method `GboTransferViaJson` (`genericbo.go` is not among the
sources) for a target of type `*map[string]interface{}` that points to `target`. It serializes
the BO to JSON and deserializes the text into the target; the result is the target afterwards
and the error. -/
def GenericBo.GboTransferViaJson (T : JsonText) (bo : GenericBo) (target : GoMap) :
    GoMap × Option Error :=
  match bo.GboToJson T with
  | (_, some err) => (target, some err)
  | (js, none) => jsonUnmarshalToMap T js target

/-! ## The row mapper of the document store -/

/-- The type `reflect.TypeOf(zero)` for `zero := make([]byte, 0)`. -/
def typeOfByteSlice : GoType := .slice .uint8

/-- The loop `for v.Kind() == reflect.Ptr && !v.IsNil() { v = v.Elem() }` of `ToBo`: it stops at
a nil pointer and at everything that is not a pointer. -/
def derefNonNil : GoVal → GoVal
  | .ptr (some t) => derefNonNil t
  | v => v

/-- The method `GenericRowMapperMongo.ToRow`. -/
def GenericRowMapperMongo.ToRow (T : JsonText) (_storageId : String) (bo : IGenericBo) :
    GoVal × Option Error :=
  match bo with
  | none => (.nil, none)
  | some b =>
    match b.GboTransferViaJson T [] with
    | (result, err) => (.mapSI result, err)

/-- The part of `ToBo` that follows `reddo.ToSlice`: the conversion result is asserted to be a
`[]byte` and parsed into a new BO. -/
def toBoOfBytes (E : Ext) (T : JsonText) (v : GoVal) : Except Panic (IGenericBo × Option Error) :=
  match E.reddoToSlice v typeOfByteSlice with
  | .error p => .error p
  | .ok (_, some err) => .ok (none, some err)
  | .ok (.bytes arr, none) =>
    match NewGenericBo.GboFromJson T arr with
    | (bo, err) => .ok (some bo, err)
  | .ok (_, none) => .error .typeAssertion

/-- The method `GenericRowMapperMongo.ToBo`. -/
def GenericRowMapperMongo.ToBo (E : Ext) (T : JsonText) (_storageId : String) (row : GoVal) :
    Except Panic (IGenericBo × Option Error) :=
  match row with
  | .nil => .ok (none, none)
  | _ =>
    match derefNonNil row with
    | .str s =>
      match NewGenericBo.GboFromJson T (stringBytes s) with
      | (bo, err) => .ok (some bo, err)
    | .bytes b => toBoOfBytes E T (.bytes b)
    | .slice elem xs =>
      if elem = .uint8 then toBoOfBytes E T (.slice elem xs)
      else .ok (none, some .cannotConstruct)
    | _ => .ok (none, some .cannotConstruct)

/-- The method `GenericRowMapperMongo.ColumnsList`. -/
def GenericRowMapperMongo.ColumnsList (_storageId : String) : List String := ["*"]

/-- A chain of `depth` non-nil pointers that ends in `v`. -/
def ptrChain : Nat → GoVal → GoVal
  | 0, v => v
  | depth + 1, v => .ptr (some (ptrChain depth v))

/-! ## The row mapper of the relational stores

The source of `GenericRowMapperSql` is not among the sources; its tests are. The definitions of
this section follow the spec (row mapper, name-translation policy) and use the names of the
tests. -/

/-- The value `m[k]` of a map given as an association list; `none` when `k` is not a key. -/
def mapGet {β : Type} : List (String × β) → String → Option β
  | [], _ => none
  | (k1, v) :: rest, k => if k1 = k then some v else mapGet rest k

/-- The assignment `m[k] = v` on a map given as an association list: the value of an existing
key is overwritten in place, a new key is added at the end. -/
def mapSet : GoMap → String → GoVal → GoMap
  | [], k, v => [(k, v)]
  | (k1, v1) :: rest, k, v => if k1 = k then (k, v) :: rest else (k1, v1) :: mapSet rest k v

/-- Modelled from the spec: the type `NameTransformation` of the SQL row mapper, which is not
among the sources, with the three constants of the tests: the default case transformation of
the name-translation policy, that is identity, upper-case or lower-case. -/
inductive NameTransformation where
  | NameTransfIntact
  | NameTransfUpperCase
  | NameTransfLowerCase
  deriving DecidableEq

/-- The lower-case form of a name (the letters `A` to `Z` are changed). -/
def lowerCase (s : String) : String := String.mk (s.data.map Char.toLower)

/-- The upper-case form of a name (the letters `a` to `z` are changed). -/
def upperCase (s : String) : String := String.mk (s.data.map Char.toUpper)

/-- Modelled from the spec: the default case transformation of a name, for the SQL row mapper,
which is not among the sources: unchanged, upper-cased or lower-cased. -/
def transformName : NameTransformation → String → String
  | .NameTransfIntact, name => name
  | .NameTransfUpperCase, name => upperCase name
  | .NameTransfLowerCase, name => lowerCase name

/-- Modelled from the spec: the struct `GenericRowMapperSql`, which is not among the sources,
with the fields that the tests set. A translator maps a storage id, or the wildcard `*`, to a
table from source name to destination name; `ColumnsListMap` maps a storage id to its column
list. -/
structure GenericRowMapperSql where
  NameTransformation : Godal.NameTransformation
  GboFieldToColNameTranslator : List (String × List (String × String))
  ColNameToGboFieldTranslator : List (String × List (String × String))
  ColumnsListMap : List (String × List String)

/-- Modelled from the spec: steps 1 and 2 of the name-translation policy, for the SQL row mapper,
which is not among the sources: the table keyed by the exact storage id and, if that is absent,
the table of the wildcard `*`. -/
def selectTable (translator : List (String × List (String × String))) (storageId : String) :
    Option (List (String × String)) :=
  match mapGet translator storageId with
  | some table => some table
  | none => mapGet translator "*"

/-- Modelled from the spec: the name-translation policy for one name, for the SQL row mapper,
which is not among the sources: the default case transformation is applied, and an entry of the
selected table for the transformed name takes precedence over it, name by name. -/
def translateName (transformation : NameTransformation) (table : Option (List (String × String)))
    (name : String) : String :=
  match table with
  | none => transformName transformation name
  | some t =>
    match mapGet t (transformName transformation name) with
    | some destination => destination
    | none => transformName transformation name

/-- The map that results from assigning every entry, under its translated name, to `acc`. -/
def renameEntries (rename : String → String) : List (String × GoVal) → GoMap → GoMap
  | [], acc => acc
  | (k, v) :: rest, acc => renameEntries rename rest (mapSet acc (rename k) v)

/-- Modelled from the spec: the method `GenericRowMapperSql.ColumnsList`, which is not among the
sources: the configured column list of the storage id if present, otherwise the one-element
list of the sentinel `*`. -/
def GenericRowMapperSql.ColumnsList (mapper : GenericRowMapperSql) (storageId : String) :
    List String :=
  match mapGet mapper.ColumnsListMap storageId with
  | some columns => columns
  | none => ["*"]

/-- Modelled from the spec: the method `GenericRowMapperSql.ToRow`, which is not among the
sources: a nil BO gives a nil row; otherwise the row is the native map of the attributes of the
BO, each under its column name by the name-translation policy. -/
def GenericRowMapperSql.ToRow (mapper : GenericRowMapperSql) (storageId : String)
    (bo : IGenericBo) : GoVal × Option Error :=
  match bo with
  | none => (.nil, none)
  | some b =>
    (.mapSI (renameEntries
      (translateName mapper.NameTransformation
        (selectTable mapper.GboFieldToColNameTranslator storageId)) b.attrs []), none)

/-- Modelled from the spec: the row behind its pointers and interface variables ("must
dereference and unwrap before interpreting"); `none` for a nil value and for a nil pointer. -/
def unwrapRow : GoVal → Option GoVal
  | .nil => none
  | .ptr none => none
  | .ptr (some t) => unwrapRow t
  | .iface v => unwrapRow v
  | v => some v

/-- Modelled from the spec: the BO of a row given as a native map, for the SQL row mapper, which
is not among the sources: every column is set as the attribute with the name that the
name-translation policy gives it. -/
def GenericRowMapperSql.boOfMap (mapper : GenericRowMapperSql) (storageId : String)
    (row : GoMap) : GenericBo :=
  ⟨renameEntries
    (translateName mapper.NameTransformation
      (selectTable mapper.ColNameToGboFieldTranslator storageId)) row []⟩

/-- Modelled from the spec: the BO of a row given as JSON text, for the SQL row mapper, which is
not among the sources: the text is parsed, and the object is treated as the native map. -/
def GenericRowMapperSql.boOfText (mapper : GenericRowMapperSql) (T : JsonText)
    (storageId : String) (text : Bytes) : IGenericBo × Option Error :=
  match T.parse text with
  | none => (none, some jsonSyntaxError)
  | some (.obj es) => (some (mapper.boOfMap storageId (goOfJsonEntries es)), none)
  | some _ => (none, some jsonTypeError)

/-- Modelled from the spec: the method `GenericRowMapperSql.ToBo`, which is not among the
sources: the row is unwrapped; nil gives a nil BO without error, as does the empty byte
sequence (the nil `[]byte` of the tests, which the values here do not tell from an empty one);
a native map, a JSON string and a JSON byte sequence give the BO of their columns; every other
shape is a translation error. -/
def GenericRowMapperSql.ToBo (mapper : GenericRowMapperSql) (T : JsonText)
    (storageId : String) (row : GoVal) : IGenericBo × Option Error :=
  match unwrapRow row with
  | none => (none, none)
  | some (.mapSI m) => (some (mapper.boOfMap storageId m), none)
  | some (.str s) => mapper.boOfText T storageId (stringBytes s)
  | some (.bytes []) => (none, none)
  | some (.bytes (b :: rest)) => mapper.boOfText T storageId (b :: rest)
  | some _ => (none, some .cannotConstruct)

/-- Modelled from the spec: the method `GboSetAttr` (`genericbo.go` is not among the sources):
it sets or overwrites an attribute. -/
def GenericBo.GboSetAttr (bo : GenericBo) (name : String) (value : GoVal) : GenericBo :=
  ⟨mapSet bo.attrs name value⟩

/-- Modelled from the spec: the method `GboGetAttr` (`genericbo.go` is not among the sources):
a read with coercion to the target type, an error on a missing attribute or an unconvertible
value. The coercion utility is a collaborator and is passed as `convert`. -/
def GenericBo.GboGetAttr (convert : GoVal → GoType → GoVal × Option Error) (bo : GenericBo)
    (name : String) (target : GoType) : GoVal × Option Error :=
  match mapGet bo.attrs name with
  | none => (.nil, some (.cannotConvert name))
  | some v => convert v target

/-- Modelled from the spec: the method `GboGetAttrUnsafe` (`genericbo.go` is not among the
sources): as `GboGetAttr`, but an error is swallowed and nil is returned. -/
def GenericBo.GboGetAttrUnsafe (convert : GoVal → GoType → GoVal × Option Error)
    (bo : GenericBo) (name : String) (target : GoType) : GoVal :=
  match bo.GboGetAttr convert name target with
  | (_, some _) => .nil
  | (v, none) => v

/-! ## A small application, used to run the definitions -/

/-- The string attribute `id` of a document or filter given as `map[string]interface{}`. -/
def idOfMap : GoMap → Option String
  | [] => none
  | (k, .str v) :: rest => if k = "id" then some v else idOfMap rest
  | _ :: rest => idOfMap rest

/-- The string attribute `id` of a document. -/
def idOf : GoVal → Option String
  | .mapSI m => idOfMap m
  | _ => none

/-- Query semantics that compare the attribute `id`: the nil filter and a filter without `id`
select every document, a filter with `id` selects the documents with that `id`. -/
def demoQuery : QuerySemantics where
  satisfies f d :=
    match f with
    | none => true
    | some m =>
      match idOfMap m with
      | none => true
      | some i => idOf d = some i
  encode d :=
    match idOf d with
    | none => stringBytes "\x7b\x7d"
    | some i => stringBytes i
  before _ _ _ := true

/-- A reading of `reddo.ToSlice` for the examples: the target type has to be a slice type, and a
byte slice converted to `[]byte` is kept as it is. -/
def demoToSlice (v : GoVal) (t : GoType) : Except Panic (GoVal × Option Error) :=
  match t, v with
  | .slice .uint8, .bytes b => .ok (.bytes b, none)
  | _, _ => .ok (.nil, some (.collaborator 1))

/-- A reading of `reddo.ToMap` for the examples: a map that already has the target type is kept. -/
def demoToMap (v : GoVal) (t : GoType) : Except Panic (GoVal × Option Error) :=
  match t, v with
  | .map .string .iface, .mapSI m => .ok (.mapSI m, none)
  | .map .string .int, .mapInt m => .ok (.mapInt m, none)
  | _, _ => .ok (.nil, some (.collaborator 2))

/-- Helpers for the examples: the JSON decoders know the empty object and `null`. -/
def demoExt : Ext where
  jsonUnmarshalMap b :=
    if b = stringBytes "\x7b\x7d" then (some [], none)
    else if b = stringBytes "null" then (none, none)
    else (some [], some (.collaborator 3))
  jsonUnmarshalSorting b :=
    if b = stringBytes "\x7b\x7d" then (some [], none)
    else if b = stringBytes "null" then (none, none)
    else (some [], some (.collaborator 3))
  reddoToSlice := demoToSlice
  reddoToMap := demoToMap

/-- A row mapper for the examples: the row of a BO is its attribute map, and the BO of a row
given as text has the text as its attribute `id`. -/
def demoRowMapper : IRowMapper where
  ToRow _ bo :=
    match bo with
    | none => (.nil, none)
    | some b => (.mapSI b.attrs, none)
  ToBo _ row :=
    match row with
    | .bytes b => (some ⟨[("id", .bytes b)]⟩, none)
    | _ => (none, some .cannotConstruct)
  ColumnsList _ := ["*"]

/-- The filter of the example DAOs: `map[string]interface{}{"id": bo.GboGetAttrUnsafe("id", ...)}`. -/
def demoCreateFilter (_ : String) (bo : IGenericBo) : GoVal :=
  match bo with
  | none => .mapSI [("id", .nil)]
  | some b =>
    match idOfMap b.attrs with
    | none => .mapSI [("id", .nil)]
    | some i => .mapSI [("id", .str i)]

/-- The example DAO over the driver `conn`. -/
def demoDao (conn : MongoConnect MemStore) (txMode : Bool) : GenericDaoMongo MemStore where
  mongoConnect := conn
  ext := demoExt
  rowMapper := demoRowMapper
  GdaoCreateFilter := demoCreateFilter
  txMode := txMode

/-- The BO with `id = "a"` and `val = v`. -/
def demoBo (v : Int) : IGenericBo := some ⟨[("id", .str "a"), ("val", .int v)]⟩

/-- The row of `demoBo v`. -/
def demoRow (v : Int) : GoVal := .mapSI [("id", .str "a"), ("val", .int v)]

/-- The methods that the application DAO of the examples declares itself: `GdaoCreateFilter`. -/
def demoSelfDeclares : DaoMethod → Bool
  | .GdaoCreateFilter => true
  | _ => false

/-- A store with three documents in collection `t` and one in collection `u`. -/
def demoStore : MemStore :=
  [("t", demoRow 1), ("t", demoRow 2), ("u", demoRow 3), ("t", demoRow 4)]

/-! ### A JSON text layer for the examples -/

/-- The decimal text of the number `m * 2 ^ e`: the integer for `e ≥ 0`, the exact decimal
fraction otherwise. -/
def printNum (m e : Int) : List Char :=
  let sign := if m < 0 then ['-'] else []
  if 0 ≤ e then sign ++ Nat.toDigits 10 (m.natAbs * 2 ^ e.toNat)
  else
    let k := (-e).toNat
    let ds := Nat.toDigits 10 (m.natAbs * 5 ^ k)
    let padded := List.replicate (k + 1 - ds.length) '0' ++ ds
    sign ++ padded.take (padded.length - k) ++ ['.'] ++ padded.drop (padded.length - k)

/-- The text of a string literal: quotes around the characters, with a backslash before a quote
and before a backslash. -/
def printString (s : String) : List Char :=
  ['"'] ++ s.data.flatMap (fun c => if c = '"' ∨ c = '\\' then ['\\', c] else [c]) ++ ['"']

mutual
/-- The compact text of a document. -/
def printJson : Json → List Char
  | .null => "null".data
  | .bool true => "true".data
  | .bool false => "false".data
  | .num m e => printNum m e
  | .str s => printString s
  | .arr xs => ['['] ++ printJsonList xs ++ [']']
  | .obj es => "\x7b".data ++ printJsonMembers es ++ "\x7d".data
/-- The texts of the elements of an array, separated by commas. -/
def printJsonList : List Json → List Char
  | [] => []
  | [x] => printJson x
  | x :: y :: rest => printJson x ++ [','] ++ printJsonList (y :: rest)
/-- The texts of the members of an object, separated by commas. -/
def printJsonMembers : List (String × Json) → List Char
  | [] => []
  | [(k, x)] => printString k ++ [':'] ++ printJson x
  | (k, x) :: y :: rest => printString k ++ [':'] ++ printJson x ++ [','] ++
      printJsonMembers (y :: rest)
end

/-- The documents whose text the parser of the examples knows. -/
def demoDocs : List Json :=
  [.obj [], .obj [("id", .str "a"), ("val", .num 1 0)],
    .obj [("id", .str "a"), ("val", .num 2 0)],
    .obj [("id", .str "a"), ("tags", .arr [.str "x", .num 3 (-1)]), ("n", .null)]]

/-- A text layer for the examples: a compact printer, and a parser that recognizes the texts of
`demoDocs`. -/
def demoText : JsonText where
  print j := stringBytes (String.mk (printJson j))
  parse b := demoDocs.find? (fun j => stringBytes (String.mk (printJson j)) == b)

/-- The GBO with `id = "a"` and `val = v`. -/
def demoGbo (v : Int) : GenericBo := ⟨[("id", .str "a"), ("val", .int v)]⟩

/-! ### The SQL row mapper of the tests -/

/-- The GBO of the tests, read from `{"ColA":1,"colb":"a string","COLC":2.3,"colD":true}`; the
binary64 value of `2.3` is `2589569785738035 * 2 ^ (-50)`. -/
def sqlTestGbo : GenericBo :=
  ⟨[("ColA", .float 1 0), ("colb", .str "a string"), ("COLC", .float 2589569785738035 (-50)),
    ("colD", .bool true)]⟩

/-- The row of the tests, with the same entries as `sqlTestGbo`. -/
def sqlTestRow : GoMap := sqlTestGbo.attrs

/-- A row mapper with the given case transformation and the given translators, and the column
list of the tests. -/
def sqlTestMapper (transformation : NameTransformation)
    (toCol toField : List (String × List (String × String))) : GenericRowMapperSql where
  NameTransformation := transformation
  GboFieldToColNameTranslator := toCol
  ColNameToGboFieldTranslator := toField
  ColumnsListMap := [("test", ["col0", "col1", "col2"])]

/-- The translation table of the upper-case tests. -/
def sqlUpperTable : List (String × String) :=
  [("COLA", "a"), ("COLB", "b"), ("COLC", "c"), ("COLD", "d")]

/-- A coercion utility for the examples: a `float64` with an integer value is read as that
integer, an integer is read as its `float64`, and a value of the target type is kept. -/
def demoConvert (v : GoVal) (target : GoType) : GoVal × Option Error :=
  match target, v with
  | .int, .int i => (.int i, none)
  | .int, .float m e => if 0 ≤ e then (.int (m * 2 ^ e.toNat), none) else (.nil, some (.collaborator 4))
  | .float64, .float m e => (.float m e, none)
  | .float64, .int i => (float64OfInt i, none)
  | .bool, .bool b => (.bool b, none)
  | .string, .str x => (.str x, none)
  | _, _ => (.nil, some (.collaborator 4))

/-- The reference driver with a commit that fails with `e`. The store keeps no transaction
log, so what was inserted before the failed commit stays in it. -/
def commitFailingConnect (Q : QuerySemantics) (e : Error) : MongoConnect MemStore where
  findOne := (memConnect Q).findOne
  insertOne := (memConnect Q).insertOne
  findOneAndReplace := (memConnect Q).findOneAndReplace
  deleteMany := (memConnect Q).deleteMany
  find := (memConnect Q).find
  startSession := (memConnect Q).startSession
  startTransaction := (memConnect Q).startTransaction
  commitTransaction s := (some e, s)
  endSession := (memConnect Q).endSession

/-- The translation table of the lower-case tests: `cola` to `a`, `colb` to `b`, `colc` to `c`,
`cold` to `d`. -/
def sqlLowerTable : List (String × String) :=
  [("cola", "a"), ("colb", "b"), ("colc", "c"), ("cold", "d")]

/-- A store with two documents of id `a` and one of id `b` in collection `t`, and a document of
id `a` in collection `u`. -/
def mixedStore : MemStore :=
  [("t", .mapSI [("id", .str "a")]), ("t", .mapSI [("id", .str "b")]),
    ("u", .mapSI [("id", .str "a")]), ("t", .mapSI [("id", .str "a"), ("val", .int 2)])]

/-- A GBO with an attribute that `json.Marshal` does not support, a `map[bool]string`. -/
def unsupportedGbo : GenericBo :=
  ⟨[("id", .str "a"), ("flags", .mapOther .bool .string [(.bool true, .str "x")])]⟩

end Godal

/-! ## Theorems -/

namespace Godal

variable {σ : Type}

/-! ### Lemmas on the reference driver -/

/-- A lookup in a store with one more entry at the end. -/
lemma find?_append_singleton (p : String × GoVal → Bool) (s : MemStore) (e : String × GoVal)
    (hs : s.find? p = none) (he : p e = true) : (s ++ [e]).find? p = some e := by
  rw [List.find?_append, hs]
  simp [List.find?, he]

/-- After the first selected entry has been replaced by a document that is selected too, the
lookup finds that document. -/
lemma find?_replaceFirst (p : String × GoVal → Bool) (doc : GoVal) (c : String)
    (hp : ∀ e : String × GoVal, p e = true → e.1 = c) (hdoc : p (c, doc) = true) :
    ∀ (s : MemStore) (e : String × GoVal), s.find? p = some e →
      (replaceFirst p doc s).find? p = some (c, doc) := by
  intro s
  induction s with
  | nil => intro e h; simp at h
  | cons x rest ih =>
    intro e h
    by_cases hx : p x = true
    · have hc : x.1 = c := hp x hx
      simp [replaceFirst, hx, hc, List.find?, hdoc]
    · have hx2 : p x = false := by simpa using hx
      simp only [List.find?, hx2] at h
      simp only [replaceFirst, hx2, List.find?]
      simpa using ih e h

/-- The entries selected in a collection belong to it. -/
lemma selects_collection (Q : QuerySemantics) (c : String) (f : Option GoMap)
    (e : String × GoVal) (h : selects Q c f e = true) : e.1 = c := by
  unfold selects at h
  simp at h
  exact h.1

/-- A document of a collection is selected as soon as it satisfies the filter. -/
lemma selects_of_satisfies (Q : QuerySemantics) (c : String) (f : Option GoMap) (d : GoVal)
    (h : Q.satisfies f d = true) : selects Q c f (c, d) = true := by
  simp [selects, h]

/-! ### GdaoCreate -/

/-- C1. When the lookup of `GdaoCreateFilter(storageId, bo)` finds a document, `GdaoCreate`
(transaction mode off) issues no insert: the store is the one left by the lookup. It returns the
count 0 with a nil error, not with `GdaoErrorDuplicatedEntry`. -/
theorem GdaoCreate_existing_document (dao : GenericDaoMongo σ) (storageId : String)
    (bo : IGenericBo) (s s1 : σ) (filter : Option GoMap) (row : SingleResult) (jsData : Bytes)
    (htx : dao.txMode = false)
    (hfilter : toMap dao.ext (dao.GdaoCreateFilter storageId bo) = .ok (filter, none))
    (hfetch : dao.MongoFetchOne storageId filter s = (row, s1))
    (hrow : row.raw = (some jsData, none)) :
    dao.GdaoCreate storageId bo s = .ok ((0, none), s1) ∧
      dao.GdaoCreate storageId bo s ≠ .ok ((0, some .duplicatedEntry), s1) := by
  have h : dao.GdaoCreate storageId bo s = .ok ((0, none), s1) := by
    simp [GenericDaoMongo.GdaoCreate, GenericDaoMongo.insertIfNotExist, htx, hfilter, hfetch, hrow]
  refine ⟨h, ?_⟩
  rw [h]
  simp

/-- The witness of C1: the BO with id `a` is created while a document with id `a` is stored. -/
theorem GdaoCreate_existing_document_witness :
    (demoDao (memConnect demoQuery) false).GdaoCreate "t" (demoBo 2) [("t", demoRow 1)]
        = .ok ((0, none), [("t", demoRow 1)]) ∧
      (demoDao (memConnect demoQuery) false).GdaoCreate "t" (demoBo 2) [("t", demoRow 1)]
        ≠ .ok ((0, some .duplicatedEntry), [("t", demoRow 1)]) :=
  GdaoCreate_existing_document (demoDao (memConnect demoQuery) false) "t" (demoBo 2)
    [("t", demoRow 1)] [("t", demoRow 1)] (some [("id", .str "a")])
    (foundResult demoQuery (demoRow 1)) (stringBytes "a") rfl rfl rfl rfl

/-- C2. On the reference driver, transaction mode off: when no document is selected by the
filter of the BO and the row mapper gives a non-nil row that satisfies that filter, `GdaoCreate`
returns `(1, nil)` and the store gains exactly that row; the second call with the same BO then
leaves the store alone and returns `(0, nil)`, not `(0, GdaoErrorDuplicatedEntry)`. -/
theorem GdaoCreate_twice (Q : QuerySemantics) (dao : GenericDaoMongo MemStore)
    (storageId : String) (bo : IGenericBo) (s : MemStore) (filter : Option GoMap) (doc : GoVal)
    (hconn : dao.mongoConnect = memConnect Q)
    (htx : dao.txMode = false)
    (hfilter : toMap dao.ext (dao.GdaoCreateFilter storageId bo) = .ok (filter, none))
    (habsent : s.find? (selects Q storageId filter) = none)
    (hrow : dao.rowMapper.ToRow storageId bo = (doc, none))
    (hdoc : doc ≠ .nil)
    (hkey : Q.satisfies filter doc = true) :
    dao.GdaoCreate storageId bo s = .ok ((1, none), s ++ [(storageId, doc)]) ∧
      dao.GdaoCreate storageId bo (s ++ [(storageId, doc)])
        = .ok ((0, none), s ++ [(storageId, doc)]) := by
  have hfound : (s ++ [(storageId, doc)]).find? (selects Q storageId filter)
      = some (storageId, doc) :=
    find?_append_singleton _ s _ habsent (selects_of_satisfies Q storageId filter doc hkey)
  constructor
  · simp only [GenericDaoMongo.GdaoCreate, GenericDaoMongo.insertIfNotExist, htx, hfilter,
      GenericDaoMongo.MongoFetchOne, GenericDaoMongo.MongoInsertOne, hconn, memConnect, habsent,
      noDocumentResult, hrow]
    cases doc <;> simp at hdoc ⊢
  · simp [GenericDaoMongo.GdaoCreate, GenericDaoMongo.insertIfNotExist, htx, hfilter,
      GenericDaoMongo.MongoFetchOne, hconn, memConnect, hfound, foundResult]

/-- The witness of C2: the BO with id `a` is created twice in an empty store. -/
theorem GdaoCreate_twice_witness :
    (demoDao (memConnect demoQuery) false).GdaoCreate "t" (demoBo 1) []
        = .ok ((1, none), [] ++ [("t", demoRow 1)]) ∧
      (demoDao (memConnect demoQuery) false).GdaoCreate "t" (demoBo 1) ([] ++ [("t", demoRow 1)])
        = .ok ((0, none), [] ++ [("t", demoRow 1)]) :=
  GdaoCreate_twice demoQuery (demoDao (memConnect demoQuery) false) "t" (demoBo 1) []
    (some [("id", .str "a")]) (demoRow 1) rfl rfl rfl rfl rfl (by simp [demoRow]) rfl

/-! ### GdaoUpdate and GdaoSave -/

/-- C3. On the reference driver: when the row mapper gives a non-nil row and no document is
selected by the filter of the BO, `GdaoUpdate` returns `(0, nil)` and leaves the store as it was
(the replace is issued with `upsert = false`), and `GdaoFetchOne` with that filter then returns
`(nil, nil)`. -/
theorem GdaoUpdate_missing (Q : QuerySemantics) (dao : GenericDaoMongo MemStore)
    (storageId : String) (bo : IGenericBo) (s : MemStore) (filter : Option GoMap) (doc : GoVal)
    (hconn : dao.mongoConnect = memConnect Q)
    (hrow : dao.rowMapper.ToRow storageId bo = (doc, none))
    (hdoc : doc ≠ .nil)
    (hfilter : toMap dao.ext (dao.GdaoCreateFilter storageId bo) = .ok (filter, none))
    (habsent : s.find? (selects Q storageId filter) = none) :
    dao.GdaoUpdate storageId bo s = .ok ((0, none), s) ∧
      dao.MongoUpdateOne storageId filter doc s
        = dao.mongoConnect.findOneAndReplace s storageId filter doc false ∧
      dao.GdaoFetchOne storageId (dao.GdaoCreateFilter storageId bo) s
        = .ok ((none, none), s) := by
  refine ⟨?_, rfl, ?_⟩
  · simp only [GenericDaoMongo.GdaoUpdate, hrow, hfilter, GenericDaoMongo.MongoUpdateOne, hconn,
      memConnect, habsent, noDocumentResult]
    cases doc <;> simp at hdoc ⊢
  · simp [GenericDaoMongo.GdaoFetchOne, hfilter, GenericDaoMongo.MongoFetchOne, hconn,
      memConnect, habsent, noDocumentResult]

/-- The witness of C3: the BO with id `a` is updated in a store without such a document. -/
theorem GdaoUpdate_missing_witness :
    (demoDao (memConnect demoQuery) false).GdaoUpdate "t" (demoBo 2) [("u", demoRow 1)]
        = .ok ((0, none), [("u", demoRow 1)]) ∧
      (demoDao (memConnect demoQuery) false).MongoUpdateOne "t" (some [("id", .str "a")])
          (demoRow 2) [("u", demoRow 1)]
        = (memConnect demoQuery).findOneAndReplace [("u", demoRow 1)] "t"
          (some [("id", .str "a")]) (demoRow 2) false ∧
      (demoDao (memConnect demoQuery) false).GdaoFetchOne "t" (demoCreateFilter "t" (demoBo 2))
          [("u", demoRow 1)]
        = .ok ((none, none), [("u", demoRow 1)]) :=
  GdaoUpdate_missing demoQuery (demoDao (memConnect demoQuery) false) "t" (demoBo 2)
    [("u", demoRow 1)] (some [("id", .str "a")]) (demoRow 2) rfl rfl (by simp [demoRow]) rfl rfl

/-- C4. On the reference driver: when the row mapper gives a non-nil row that satisfies the
filter of the BO, `GdaoSave` returns `(1, nil)` whether or not a document was selected before,
and afterwards the document selected by that filter is exactly the row, which is also what
`GdaoFetchOne` hands to the row mapper. -/
theorem GdaoSave_replaces (Q : QuerySemantics) (dao : GenericDaoMongo MemStore)
    (storageId : String) (bo : IGenericBo) (s : MemStore) (filter : Option GoMap) (doc : GoVal)
    (hconn : dao.mongoConnect = memConnect Q)
    (hrow : dao.rowMapper.ToRow storageId bo = (doc, none))
    (hdoc : doc ≠ .nil)
    (hfilter : toMap dao.ext (dao.GdaoCreateFilter storageId bo) = .ok (filter, none))
    (hkey : Q.satisfies filter doc = true) :
    ∃ s1 : MemStore,
      dao.GdaoSave storageId bo s = .ok ((1, none), s1) ∧
      s1.find? (selects Q storageId filter) = some (storageId, doc) ∧
      dao.GdaoFetchOne storageId (dao.GdaoCreateFilter storageId bo) s1
        = .ok (dao.rowMapper.ToBo storageId (.bytes (Q.encode doc)), s1) := by
  have hsel : selects Q storageId filter (storageId, doc) = true :=
    selects_of_satisfies Q storageId filter doc hkey
  have hsave : ∀ s1 : MemStore, s1.find? (selects Q storageId filter) = some (storageId, doc) →
      dao.GdaoFetchOne storageId (dao.GdaoCreateFilter storageId bo) s1
        = .ok (dao.rowMapper.ToBo storageId (.bytes (Q.encode doc)), s1) := by
    intro s1 h1
    simp [GenericDaoMongo.GdaoFetchOne, hfilter, GenericDaoMongo.MongoFetchOne, hconn,
      memConnect, h1, foundResult]
  cases hfind : s.find? (selects Q storageId filter) with
  | none =>
    have h1 := find?_append_singleton _ s _ hfind hsel
    refine ⟨s ++ [(storageId, doc)], ?_, h1, hsave _ h1⟩
    simp only [GenericDaoMongo.GdaoSave, hrow, hfilter, GenericDaoMongo.MongoSaveOne, hconn,
      memConnect, hfind, noDocumentResult]
    cases doc <;> simp at hdoc ⊢
  | some e =>
    have h1 := find?_replaceFirst (selects Q storageId filter) doc storageId
      (selects_collection Q storageId filter) hsel s e hfind
    refine ⟨replaceFirst (selects Q storageId filter) doc s, ?_, h1, hsave _ h1⟩
    simp only [GenericDaoMongo.GdaoSave, hrow, hfilter, GenericDaoMongo.MongoSaveOne, hconn,
      memConnect, hfind, foundResult]

/-- The witness of C4: the BO `{id: a, val: 2}` is saved over the stored `{id: a, val: 1}`. -/
theorem GdaoSave_replaces_witness :
    ∃ s1 : MemStore,
      (demoDao (memConnect demoQuery) false).GdaoSave "t" (demoBo 2) [("t", demoRow 1)]
        = .ok ((1, none), s1) ∧
      s1.find? (selects demoQuery "t" (some [("id", .str "a")])) = some ("t", demoRow 2) ∧
      (demoDao (memConnect demoQuery) false).GdaoFetchOne "t" (demoCreateFilter "t" (demoBo 2)) s1
        = .ok (demoRowMapper.ToBo "t" (.bytes (demoQuery.encode (demoRow 2))), s1) :=
  GdaoSave_replaces demoQuery (demoDao (memConnect demoQuery) false) "t" (demoBo 2)
    [("t", demoRow 1)] (some [("id", .str "a")]) (demoRow 2) rfl rfl (by simp [demoRow]) rfl rfl

/-- C5. When the replace issued by `GdaoSave` fails with the error `e`, `GdaoSave` returns that
error together with the count 1, not 0. -/
theorem GdaoSave_failed_replace (dao : GenericDaoMongo σ) (storageId : String)
    (bo : IGenericBo) (s s1 : σ) (filter : Option GoMap) (doc : GoVal) (result : SingleResult)
    (e : Error)
    (hrow : dao.rowMapper.ToRow storageId bo = (doc, none))
    (hfilter : toMap dao.ext (dao.GdaoCreateFilter storageId bo) = .ok (filter, none))
    (hsave : dao.MongoSaveOne storageId filter doc s = (result, s1))
    (herr : result.err = some e) :
    dao.GdaoSave storageId bo s = .ok ((1, some e), s1) := by
  simp [GenericDaoMongo.GdaoSave, hrow, hfilter, hsave, herr]

/-- The witness of C5: a BO is saved while every command of the driver fails. -/
theorem GdaoSave_failed_replace_witness :
    (demoDao (failingConnect (.collaborator 11000)) false).GdaoSave "t" (demoBo 2)
        [("t", demoRow 1)]
      = .ok ((1, some (.collaborator 11000)), [("t", demoRow 1)]) :=
  GdaoSave_failed_replace (demoDao (failingConnect (.collaborator 11000)) false) "t" (demoBo 2)
    [("t", demoRow 1)] [("t", demoRow 1)] (some [("id", .str "a")]) (demoRow 2)
    (failedResult (.collaborator 11000)) (.collaborator 11000) rfl rfl rfl rfl

/-! ### GdaoDelete -/

/-- C6. As long as the application DAO has no `GdaoDelete` of its own, a call of `GdaoDelete`
reaches no method body, whatever the number of promotion steps: `GenericDaoMongo` takes it from
`AbstractGenericDao`, which takes it from the stored `IGenericDao`, which is the application DAO
again. `GdaoDeleteMany`, in contrast, is found on `GenericDaoMongo` at once. -/
theorem GdaoDelete_never_resolves (selfDeclares : DaoMethod → Bool)
    (hself : selfDeclares .GdaoDelete = false) (fuel : Nat) (layer : DaoLayer) :
    resolve selfDeclares fuel layer .GdaoDelete = none ∧
      resolve selfDeclares 1 .genericDaoMongo .GdaoDeleteMany = some .genericDaoMongo := by
  refine ⟨?_, by simp [resolve, declares]⟩
  induction fuel generalizing layer with
  | zero => rfl
  | succ k ih =>
    cases layer <;> simp [resolve, declares, hself, ih]

/-- The witness of C6: a call on the `GenericDaoMongo` of the examples, followed for 1000 steps. -/
theorem GdaoDelete_never_resolves_witness :
    resolve demoSelfDeclares 1000 .genericDaoMongo .GdaoDelete = none ∧
      resolve demoSelfDeclares 1 .genericDaoMongo .GdaoDeleteMany = some .genericDaoMongo :=
  GdaoDelete_never_resolves demoSelfDeclares rfl 1000 .genericDaoMongo

/-! ### GdaoDeleteMany and GdaoFetchOne -/

/-- The conversion from `int64` to `int` keeps every value of the `int64` range. -/
lemma intOfInt64_eq (x : Int) (hlo : -(2 : Int) ^ 63 ≤ x) (hhi : x < (2 : Int) ^ 63) :
    intOfInt64 x = x := by
  unfold intOfInt64 intBits
  norm_num at hlo hhi ⊢
  omega

/-- C7. When the filter is normalized without error to `f` and the driver command `DeleteMany`
on the collection with the filter `f` succeeds with the deleted count `n` (an `int64`),
`GdaoDeleteMany` returns `(n, nil)` and leaves the store as the driver left it, `(0, nil)`
included; whenever `GdaoDeleteMany` returns a non-nil error, for any filter and store, the count
is 0; and over the reference driver the count is the number of documents of the collection that
satisfy `f`, and exactly these are removed. -/
theorem GdaoDeleteMany_count (dao : GenericDaoMongo σ) (storageId : String) (filter : GoVal)
    (s s1 : σ) (f : Option GoMap) (n : Int)
    (hfilter : toMap dao.ext filter = .ok (f, none))
    (hdelete : dao.mongoConnect.deleteMany s storageId f = ((some n, none), s1))
    (hlo : -(2 : Int) ^ 63 ≤ n) (hhi : n < (2 : Int) ^ 63) :
    dao.GdaoDeleteMany storageId filter s = .ok ((n, none), s1) ∧
      (∀ (filter2 : GoVal) (s2 s3 : σ) (c : Int) (e : Error),
        dao.GdaoDeleteMany storageId filter2 s2 = .ok ((c, some e), s3) → c = 0) ∧
      ∀ (Q : QuerySemantics) (st : MemStore), (st.length : Int) < (2 : Int) ^ 63 →
        GenericDaoMongo.GdaoDeleteMany
            ⟨memConnect Q, dao.ext, dao.rowMapper, dao.GdaoCreateFilter, dao.txMode⟩
            storageId filter st
          = .ok ((((st.filter (selects Q storageId f)).length : Int), none),
              st.filter (fun e => !selects Q storageId f e)) := by
  refine ⟨?_, ?_, ?_⟩
  · simp [GenericDaoMongo.GdaoDeleteMany, GenericDaoMongo.MongoDeleteMany, hfilter, hdelete,
      intOfInt64_eq n hlo hhi]
  · intro filter2 s2 s3 c e h
    unfold GenericDaoMongo.GdaoDeleteMany at h
    split at h
    · simp at h
    · simp at h
      exact h.1.1.symm
    · split at h
      · simp at h
        exact h.1.1.symm
      · simp at h
      · simp at h
  · intro Q st hst
    have hle : ((st.filter (selects Q storageId f)).length : Int) ≤ (st.length : Int) := by
      exact_mod_cast List.length_filter_le _ st
    have hcount := intOfInt64_eq ((st.filter (selects Q storageId f)).length : Int)
      (by
        have h0 : (0 : Int) ≤ ((st.filter (selects Q storageId f)).length : Int) :=
          Int.natCast_nonneg _
        have hneg : -(2 : Int) ^ 63 ≤ 0 := by norm_num
        exact le_trans hneg h0)
      (lt_of_le_of_lt hle hst)
    simp [GenericDaoMongo.GdaoDeleteMany, GenericDaoMongo.MongoDeleteMany, hfilter, memConnect,
      hcount]

/-- The witness of C7: in a store with three documents in collection `t`, the filter on the id
`a` removes the two documents of that id, and only them, and returns `(2, nil)`; the filter on
the id `z` matches nothing and returns `(0, nil)`; an error comes with the count 0. -/
theorem GdaoDeleteMany_count_witness :
    (demoDao (memConnect demoQuery) false).GdaoDeleteMany "t" (.mapSI [("id", .str "a")])
        mixedStore
        = .ok ((2, none), [("t", .mapSI [("id", .str "b")]), ("u", .mapSI [("id", .str "a")])]) ∧
      (demoDao (memConnect demoQuery) false).GdaoDeleteMany "t" (.mapSI [("id", .str "z")])
        mixedStore = .ok ((0, none), mixedStore) ∧
      ∀ (filter2 : GoVal) (s2 s3 : MemStore) (c : Int) (e : Error),
        (demoDao (memConnect demoQuery) false).GdaoDeleteMany "t" filter2 s2
          = .ok ((c, some e), s3) → c = 0 :=
  ⟨(GdaoDeleteMany_count (demoDao (memConnect demoQuery) false) "t"
      (.mapSI [("id", .str "a")]) mixedStore
      [("t", .mapSI [("id", .str "b")]), ("u", .mapSI [("id", .str "a")])]
      (some [("id", .str "a")]) 2 rfl rfl (by norm_num) (by norm_num)).1,
    (GdaoDeleteMany_count (demoDao (memConnect demoQuery) false) "t"
      (.mapSI [("id", .str "z")]) mixedStore mixedStore
      (some [("id", .str "z")]) 0 rfl rfl (by norm_num) (by norm_num)).1,
    (GdaoDeleteMany_count (demoDao (memConnect demoQuery) false) "t"
      (.mapSI [("id", .str "z")]) mixedStore mixedStore
      (some [("id", .str "z")]) 0 rfl rfl (by norm_num) (by norm_num)).2.1⟩

/-- C8. When the filter is normalized without error: if the lookup reports no document
(`DecodeSingleResultRaw` gives `(nil, nil)`), `GdaoFetchOne` returns `(nil, nil)`; if it reports
the JSON text `d`, `GdaoFetchOne` returns exactly `ToBo(storageId, d)` of the row mapper. -/
theorem GdaoFetchOne_result (dao : GenericDaoMongo σ) (storageId : String) (filter : GoVal)
    (s s1 : σ) (f : Option GoMap) (dbResult : SingleResult)
    (hfilter : toMap dao.ext filter = .ok (f, none))
    (hfetch : dao.MongoFetchOne storageId f s = (dbResult, s1)) :
    (dbResult.raw = (none, none) →
        dao.GdaoFetchOne storageId filter s = .ok ((none, none), s1)) ∧
      ∀ d : Bytes, dbResult.raw = (some d, none) →
        dao.GdaoFetchOne storageId filter s
          = .ok (dao.rowMapper.ToBo storageId (.bytes d), s1) := by
  constructor
  · intro h
    simp [GenericDaoMongo.GdaoFetchOne, hfilter, hfetch, h]
  · intro d h
    simp [GenericDaoMongo.GdaoFetchOne, hfilter, hfetch, h]

/-- The witness of C8: a lookup in a store that holds the document with id `a`. -/
theorem GdaoFetchOne_result_witness :
    ((foundResult demoQuery (demoRow 1)).raw = (none, none) →
        (demoDao (memConnect demoQuery) false).GdaoFetchOne "t" (.str "\x7b\x7d")
          [("t", demoRow 1)] = .ok ((none, none), [("t", demoRow 1)])) ∧
      ∀ d : Bytes, (foundResult demoQuery (demoRow 1)).raw = (some d, none) →
        (demoDao (memConnect demoQuery) false).GdaoFetchOne "t" (.str "\x7b\x7d")
          [("t", demoRow 1)]
          = .ok (demoRowMapper.ToBo "t" (.bytes d), [("t", demoRow 1)]) :=
  GdaoFetchOne_result (demoDao (memConnect demoQuery) false) "t" (.str "\x7b\x7d")
    [("t", demoRow 1)] [("t", demoRow 1)] (some []) (foundResult demoQuery (demoRow 1)) rfl rfl

/-! ### GdaoFetchMany -/

/-- Sorting keeps the number of selected documents. -/
lemma selectedDocs_length (Q : QuerySemantics) (s : MemStore) (c : String) (f : Option GoMap)
    (srt : Option SortMap) :
    (selectedDocs Q s c f srt).length = (s.filter (selects Q c f)).length := by
  unfold selectedDocs memFindDocs
  cases h : (findOptionsOf srt 0 0).sort <;> simp [List.length_insertionSort]

/-- With a start offset that is not negative, the query built by `MongoFetchMany` returns the
selected documents from the offset on, cut to `numItems` when that is positive. -/
lemma memFindDocs_window (Q : QuerySemantics) (s : MemStore) (c : String) (f : Option GoMap)
    (srt : Option SortMap) (k n : Int) (hk : 0 ≤ k) :
    memFindDocs Q s c f (findOptionsOf srt k n)
      = if 0 < n then ((selectedDocs Q s c f srt).drop k.toNat).take n.toNat
        else (selectedDocs Q s c f srt).drop k.toNat := by
  have hsort : (findOptionsOf srt k n).sort = (findOptionsOf srt 0 0).sort := rfl
  unfold selectedDocs memFindDocs
  rw [hsort]
  by_cases hk0 : 0 < k
  · by_cases hn0 : 0 < n <;> simp [findOptionsOf, int64OfInt, hk0, hn0]
  · have hkz : k = 0 := by omega
    subst hkz
    by_cases hn0 : 0 < n <;> simp [findOptionsOf, int64OfInt, hn0]

/-- The callback loop over documents that the row mapper accepts collects all their BOs. -/
lemma fetchManyLoop_ok (rowMapper : IRowMapper) (c : String) (docs : List Bytes) :
    ∀ acc : List IGenericBo, (∀ d ∈ docs, (rowMapper.ToBo c (.bytes d)).2 = none) →
      fetchManyLoop rowMapper c (docs.map (fun d => (d, none))) acc
        = (acc ++ docs.map (fun d => (rowMapper.ToBo c (.bytes d)).1), none) := by
  induction docs with
  | nil => intro acc _; simp [fetchManyLoop]
  | cons d rest ih =>
    intro acc h
    have hd : (rowMapper.ToBo c (.bytes d)).2 = none := h d (List.mem_cons_self _ _)
    have hrest : ∀ x ∈ rest, (rowMapper.ToBo c (.bytes x)).2 = none :=
      fun x hx => h x (List.mem_cons_of_mem _ hx)
    rcases hbo : rowMapper.ToBo c (.bytes d) with ⟨bo, err⟩
    simp only [hbo] at hd
    subst hd
    simp only [List.map_cons, fetchManyLoop, hbo]
    rw [ih (acc ++ [bo]) hrest]
    simp

/-- C9. On the reference driver, with filter and sorting normalized without error and a row
mapper that accepts every selected document: for a start offset `k ≥ 0`, the call with
`numItems = n > 0` and `k + n` at most the number `N` of selected documents returns exactly `n`
BOs, those of the documents at positions `k` to `k + n - 1`; the call with `n ≤ 0` returns the
`N - k` BOs of all documents from position `k` on. -/
theorem GdaoFetchMany_paging (Q : QuerySemantics) (dao : GenericDaoMongo MemStore)
    (storageId : String) (filter sorting : GoVal) (s : MemStore) (f : Option GoMap)
    (srt : Option SortMap) (k n : Int)
    (hconn : dao.mongoConnect = memConnect Q)
    (hfilter : toMap dao.ext filter = .ok (f, none))
    (hsort : toSortingMap dao.ext sorting = .ok (srt, none))
    (hdecode : ∀ d ∈ selectedDocs Q s storageId f srt,
      (dao.rowMapper.ToBo storageId (.bytes (Q.encode d))).2 = none)
    (hk : 0 ≤ k) :
    (0 < n → k + n ≤ ((s.filter (selects Q storageId f)).length : Int) →
        ∃ bos : List IGenericBo,
          dao.GdaoFetchMany storageId filter sorting k n s = .ok ((bos, none), s) ∧
          (bos.length : Int) = n ∧
          bos = (((selectedDocs Q s storageId f srt).drop k.toNat).take n.toNat).map
            (fun d => (dao.rowMapper.ToBo storageId (.bytes (Q.encode d))).1)) ∧
      (n ≤ 0 →
        ∃ bos : List IGenericBo,
          dao.GdaoFetchMany storageId filter sorting k n s = .ok ((bos, none), s) ∧
          bos.length = (s.filter (selects Q storageId f)).length - k.toNat ∧
          bos = ((selectedDocs Q s storageId f srt).drop k.toNat).map
            (fun d => (dao.rowMapper.ToBo storageId (.bytes (Q.encode d))).1)) := by
  have hlen := selectedDocs_length Q s storageId f srt
  have hrun : ∀ docs : List GoVal, memFindDocs Q s storageId f (findOptionsOf srt k n) = docs →
      (∀ d ∈ docs, d ∈ selectedDocs Q s storageId f srt) →
      dao.GdaoFetchMany storageId filter sorting k n s
        = .ok ((docs.map (fun d => (dao.rowMapper.ToBo storageId (.bytes (Q.encode d))).1),
            none), s) := by
    intro docs hdocs hmem
    have hloop := fetchManyLoop_ok dao.rowMapper storageId (docs.map Q.encode) []
      (by
        intro b hb
        obtain ⟨d, hd, rfl⟩ := List.mem_map.1 hb
        exact hdecode d (hmem d hd))
    simp only [List.map_map, List.nil_append] at hloop
    simp only [GenericDaoMongo.GdaoFetchMany, hfilter, hsort, GenericDaoMongo.MongoFetchMany,
      hconn, memConnect, hdocs]
    have hcur : List.map (fun d => (Q.encode d, (none : Option Error))) docs
        = List.map ((fun d => (d, (none : Option Error))) ∘ Q.encode) docs := rfl
    rw [hcur, hloop]
    rfl
  constructor
  · intro hn hN
    have hwin := memFindDocs_window Q s storageId f srt k n hk
    rw [if_pos hn] at hwin
    refine ⟨_, hrun _ hwin ?_, ?_, rfl⟩
    · intro d hd
      exact List.mem_of_mem_drop (List.mem_of_mem_take hd)
    · rw [List.length_map, List.length_take, List.length_drop, hlen]
      omega
  · intro hn
    have hwin := memFindDocs_window Q s storageId f srt k n hk
    rw [if_neg (by omega)] at hwin
    refine ⟨_, hrun _ hwin ?_, ?_, rfl⟩
    · intro d hd
      exact List.mem_of_mem_drop hd
    · rw [List.length_map, List.length_drop, hlen]

/-- The witness of C9: the second page of size 1, and everything from offset 1 on, out of the
three documents of collection `t`. -/
theorem GdaoFetchMany_paging_witness :
    (∃ bos : List IGenericBo,
        (demoDao (memConnect demoQuery) false).GdaoFetchMany "t" .nil .nil 1 1 demoStore
          = .ok ((bos, none), demoStore) ∧ (bos.length : Int) = 1) ∧
      (∃ bos : List IGenericBo,
        (demoDao (memConnect demoQuery) false).GdaoFetchMany "t" .nil .nil 1 0 demoStore
          = .ok ((bos, none), demoStore) ∧
        bos.length = (demoStore.filter (selects demoQuery "t" none)).length - (1 : Int).toNat) :=
  ⟨match (GdaoFetchMany_paging demoQuery (demoDao (memConnect demoQuery) false) "t" .nil .nil
      demoStore none none 1 1 rfl rfl rfl (fun _ _ => rfl) (by norm_num)).1
      (by norm_num) (by decide) with
    | ⟨bos, h1, h2, _⟩ => ⟨bos, h1, h2⟩,
   match (GdaoFetchMany_paging demoQuery (demoDao (memConnect demoQuery) false) "t" .nil .nil
      demoStore none none 1 0 rfl rfl rfl (fun _ _ => rfl) (by norm_num)).2 (by norm_num) with
    | ⟨bos, h1, h2, _⟩ => ⟨bos, h1, h2⟩⟩

/-! ### The encodings of a filter -/

/-- C10. For a JSON text `t`: given as a string, `toMap` and `toSortingMap` return what the JSON
decoder makes of the bytes of `t`. Given as the byte slice of the same text, they pass the
element type `byte` to `reddo.ToSlice` as the target type; as long as a conversion to that type
does not produce a byte slice, neither of them returns without error. -/
theorem toMap_bytes_not_normalized (E : Ext) (t : String)
    (hslice : ∀ (v r : GoVal), E.reddoToSlice v typeOfByte = .ok (r, none) →
      ∀ b : Bytes, r ≠ .bytes b) :
    toMap E (.str t) = .ok (E.jsonUnmarshalMap (stringBytes t)) ∧
      toSortingMap E (.str t) = .ok (E.jsonUnmarshalSorting (stringBytes t)) ∧
      (∀ m : Option GoMap, toMap E (.bytes (stringBytes t)) ≠ .ok (m, none)) ∧
      (∀ m : Option SortMap, toSortingMap E (.bytes (stringBytes t)) ≠ .ok (m, none)) := by
  refine ⟨rfl, rfl, ?_, ?_⟩
  · intro m h
    simp only [toMap, derefAll] at h
    split at h
    · simp at h
    · simp at h
    · rename_i r heq
      exact hslice _ _ heq _ rfl
    · simp at h
  · intro m h
    simp only [toSortingMap, derefAll] at h
    split at h
    · simp at h
    · simp at h
    · rename_i r heq
      exact hslice _ _ heq _ rfl
    · simp at h

/-- The witness of C10: the text of the empty JSON object, as a string and as a byte slice. -/
theorem toMap_bytes_not_normalized_witness :
    toMap demoExt (.str "\x7b\x7d") = .ok (demoExt.jsonUnmarshalMap (stringBytes "\x7b\x7d")) ∧
      toSortingMap demoExt (.str "\x7b\x7d")
        = .ok (demoExt.jsonUnmarshalSorting (stringBytes "\x7b\x7d")) ∧
      (∀ m : Option GoMap, toMap demoExt (.bytes (stringBytes "\x7b\x7d")) ≠ .ok (m, none)) ∧
      (∀ m : Option SortMap,
        toSortingMap demoExt (.bytes (stringBytes "\x7b\x7d")) ≠ .ok (m, none)) :=
  toMap_bytes_not_normalized demoExt "\x7b\x7d" (by
    intro v r h b hb
    subst hb
    cases v <;> simp [demoExt, demoToSlice, typeOfByte] at h)

/-! ### Lemmas on JSON -/

/-- The conversion of an integer is a binary64 value. -/
lemma float64OfInt_float (i : Int) : ∃ m e : Int, float64OfInt i = .float m e := by
  unfold float64OfInt
  simp only []
  split
  · exact ⟨_, _, rfl⟩
  · exact ⟨_, _, rfl⟩

/-- The literal printed for an integer is read back as its conversion to `float64`. -/
lemma goOfJson_jsonOfInt (i : Int) : goOfJson (jsonOfInt i) = float64OfInt i := by
  obtain ⟨m, e, h⟩ := float64OfInt_float i
  simp [jsonOfInt, h, goOfJson]

mutual
/-- A value of the data model has a document, and the document is read back as the value with
its numbers coerced. -/
theorem goOfJson_jsonOfGo : ∀ v : GoVal, specValue v = true →
    (jsonOfGo v).map goOfJson = some (jsonCoerce v)
  | .nil, _ => by simp [jsonOfGo, goOfJson, jsonCoerce]
  | .bool _, _ => by simp [jsonOfGo, goOfJson, jsonCoerce]
  | .int i, _ => by simp [jsonOfGo, jsonCoerce, goOfJson_jsonOfInt]
  | .float _ _, _ => by simp [jsonOfGo, goOfJson, jsonCoerce]
  | .str _, _ => by simp [jsonOfGo, goOfJson, jsonCoerce]
  | .slice _ xs, h => by
    have ih := goOfJsonList_jsonOfGoList xs (by simpa [specValue] using h)
    cases hx : jsonOfGoList xs with
    | none => simp [hx] at ih
    | some js =>
      simp [hx] at ih
      simp [jsonOfGo, goOfJson, jsonCoerce, hx, ih]
  | .mapSI m, h => by
    have ih := goOfJsonEntries_jsonOfGoEntries m (by simpa [specValue] using h)
    cases hx : jsonOfGoEntries m with
    | none => simp [hx] at ih
    | some js =>
      simp [hx] at ih
      simp [jsonOfGo, goOfJson, jsonCoerce, hx, ih]
  | .bytes _, h => by simp [specValue] at h
  | .mapInt _, h => by simp [specValue] at h
  | .mapOther _ _ _, h => by simp [specValue] at h
  | .ptr _, h => by simp [specValue] at h
  | .iface _, h => by simp [specValue] at h
  | .struct _, h => by simp [specValue] at h
/-- The elements of a slice of values of the data model are read back coerced. -/
theorem goOfJsonList_jsonOfGoList : ∀ xs : List GoVal, specValueList xs = true →
    (jsonOfGoList xs).map goOfJsonList = some (jsonCoerceList xs)
  | [], _ => by simp [jsonOfGoList, goOfJsonList, jsonCoerceList]
  | x :: xs, h => by
    simp [specValueList] at h
    have h1 := goOfJson_jsonOfGo x h.1
    have h2 := goOfJsonList_jsonOfGoList xs h.2
    cases hx : jsonOfGo x with
    | none => simp [hx] at h1
    | some j =>
      cases hxs : jsonOfGoList xs with
      | none => simp [hxs] at h2
      | some js =>
        simp [hx] at h1
        simp [hxs] at h2
        simp [jsonOfGoList, hx, hxs, goOfJsonList, jsonCoerceList, h1, h2]
/-- The entries of a map of values of the data model are read back coerced, under their keys. -/
theorem goOfJsonEntries_jsonOfGoEntries : ∀ m : List (String × GoVal),
    specValueEntries m = true →
    (jsonOfGoEntries m).map goOfJsonEntries = some (jsonCoerceEntries m)
  | [], _ => by simp [jsonOfGoEntries, goOfJsonEntries, jsonCoerceEntries]
  | (k, x) :: xs, h => by
    simp [specValueEntries] at h
    have h1 := goOfJson_jsonOfGo x h.1
    have h2 := goOfJsonEntries_jsonOfGoEntries xs h.2
    cases hx : jsonOfGo x with
    | none => simp [hx] at h1
    | some j =>
      cases hxs : jsonOfGoEntries xs with
      | none => simp [hxs] at h2
      | some js =>
        simp [hx] at h1
        simp [hxs] at h2
        simp [jsonOfGoEntries, hx, hxs, goOfJsonEntries, jsonCoerceEntries, h1, h2]
end

mutual
/-- The document of a value that was read from a document is that document. -/
theorem jsonOfGo_goOfJson : ∀ j : Json, jsonOfGo (goOfJson j) = some j
  | .null => by simp [goOfJson, jsonOfGo]
  | .bool _ => by simp [goOfJson, jsonOfGo]
  | .num _ _ => by simp [goOfJson, jsonOfGo]
  | .str _ => by simp [goOfJson, jsonOfGo]
  | .arr xs => by simp [goOfJson, jsonOfGo, jsonOfGoList_goOfJsonList xs]
  | .obj es => by simp [goOfJson, jsonOfGo, jsonOfGoEntries_goOfJsonEntries es]
/-- The documents of values that were read from documents are those documents. -/
theorem jsonOfGoList_goOfJsonList : ∀ xs : List Json, jsonOfGoList (goOfJsonList xs) = some xs
  | [] => by simp [goOfJsonList, jsonOfGoList]
  | x :: xs => by
    simp [goOfJsonList, jsonOfGoList, jsonOfGo_goOfJson x, jsonOfGoList_goOfJsonList xs]
/-- The members of entries that were read from members are those members. -/
theorem jsonOfGoEntries_goOfJsonEntries : ∀ es : List (String × Json),
    jsonOfGoEntries (goOfJsonEntries es) = some es
  | [] => by simp [goOfJsonEntries, jsonOfGoEntries]
  | (k, x) :: es => by
    simp [goOfJsonEntries, jsonOfGoEntries, jsonOfGo_goOfJson x,
      jsonOfGoEntries_goOfJsonEntries es]
end

/-- The members written for the entries of a map have the keys of the entries. -/
lemma jsonOfGoEntries_keys : ∀ (m : List (String × GoVal)) (es : List (String × Json)),
    jsonOfGoEntries m = some es → es.map Prod.fst = m.map Prod.fst
  | [], es, h => by
    simp [jsonOfGoEntries] at h
    simp [← h]
  | (k, x) :: xs, es, h => by
    cases hx : jsonOfGo x with
    | none => simp [jsonOfGoEntries, hx] at h
    | some j =>
      cases hxs : jsonOfGoEntries xs with
      | none => simp [jsonOfGoEntries, hx, hxs] at h
      | some js =>
        simp [jsonOfGoEntries, hx, hxs] at h
        simp [← h, jsonOfGoEntries_keys xs js hxs]

/-- The entries read from the members of an object have the keys of the members. -/
lemma goOfJsonEntries_keys : ∀ es : List (String × Json),
    (goOfJsonEntries es).map Prod.fst = es.map Prod.fst
  | [] => by simp [goOfJsonEntries]
  | (k, x) :: es => by simp [goOfJsonEntries, goOfJsonEntries_keys es]

/-- The coercion of the numbers keeps the keys of a map. -/
lemma jsonCoerceEntries_keys : ∀ m : List (String × GoVal),
    (jsonCoerceEntries m).map Prod.fst = m.map Prod.fst
  | [] => by simp [jsonCoerceEntries]
  | (k, x) :: m => by simp [jsonCoerceEntries, jsonCoerceEntries_keys m]

/-! ### Unsupported encodings of a filter -/

/-- The normalization of a filter of an unsupported shape ends in an error. -/
lemma toMap_unsupported (E : Ext) (input : GoVal) (hnil : input ≠ .nil)
    (hstr : kindOf (derefAll input) ≠ .string) (hmap : kindOf (derefAll input) ≠ .map)
    (hbytes : ∀ b : Bytes, derefAll input ≠ some (.bytes b))
    (hslice : ∀ (elem : GoType) (xs : List GoVal), derefAll input = some (.slice elem xs) →
      ∃ (r : GoVal) (e : Error), E.reddoToSlice (.slice elem xs) typeOfByte = .ok (r, some e)) :
    ∃ e : Error, toMap E input = .ok (none, some e) := by
  cases input with
  | nil => exact absurd rfl hnil
  | ptr t =>
    simp only [toMap]
    generalize derefAll (.ptr t) = d at hstr hmap hbytes hslice ⊢
    rcases d with _ | v
    · exact ⟨_, rfl⟩
    · cases v <;> simp [kindOf] at hstr hmap hbytes ⊢
      case slice elem xs =>
        obtain ⟨r, e, hr⟩ := hslice elem xs rfl
        exact ⟨e, by simp [hr]⟩
  | slice elem xs =>
    obtain ⟨r, e, hr⟩ := hslice elem xs rfl
    exact ⟨e, by simp [toMap, derefAll, hr]⟩
  | _ => simp [toMap, derefAll, kindOf] at hstr hmap hbytes ⊢

/-- The normalization of a sorting of an unsupported shape ends in an error. -/
lemma toSortingMap_unsupported (E : Ext) (input : GoVal) (hnil : input ≠ .nil)
    (hstr : kindOf (derefAll input) ≠ .string) (hmap : kindOf (derefAll input) ≠ .map)
    (hbytes : ∀ b : Bytes, derefAll input ≠ some (.bytes b))
    (hslice : ∀ (elem : GoType) (xs : List GoVal), derefAll input = some (.slice elem xs) →
      ∃ (r : GoVal) (e : Error), E.reddoToSlice (.slice elem xs) typeOfByte = .ok (r, some e)) :
    ∃ e : Error, toSortingMap E input = .ok (none, some e) := by
  cases input with
  | nil => exact absurd rfl hnil
  | ptr t =>
    simp only [toSortingMap]
    generalize derefAll (.ptr t) = d at hstr hmap hbytes hslice ⊢
    rcases d with _ | v
    · exact ⟨_, rfl⟩
    · cases v <;> simp [kindOf] at hstr hmap hbytes ⊢
      case slice elem xs =>
        obtain ⟨r, e, hr⟩ := hslice elem xs rfl
        exact ⟨e, by simp [hr]⟩
  | slice elem xs =>
    obtain ⟨r, e, hr⟩ := hslice elem xs rfl
    exact ⟨e, by simp [toSortingMap, derefAll, hr]⟩
  | _ => simp [toSortingMap, derefAll, kindOf] at hstr hmap hbytes ⊢

/-- C11. For a non-nil input that, once the pointers are followed, is neither a string nor a
byte sequence nor a map (a number, a bool, a struct, a nil pointer; also a slice of other
elements, for which `reddo.ToSlice` reports an error): `toMap` and `toSortingMap` return a
non-nil error, and `GdaoFetchOne`, `GdaoDeleteMany` and `GdaoFetchMany` return that error with a
nil or zero result and the store untouched, whatever the driver. -/
theorem unsupported_encoding_is_error (dao : GenericDaoMongo σ) (input : GoVal)
    (hnil : input ≠ .nil)
    (hstr : kindOf (derefAll input) ≠ .string) (hmap : kindOf (derefAll input) ≠ .map)
    (hbytes : ∀ b : Bytes, derefAll input ≠ some (.bytes b))
    (hslice : ∀ (elem : GoType) (xs : List GoVal), derefAll input = some (.slice elem xs) →
      ∃ (r : GoVal) (e : Error),
        dao.ext.reddoToSlice (.slice elem xs) typeOfByte = .ok (r, some e)) :
    ∃ e1 e2 : Error,
      toMap dao.ext input = .ok (none, some e1) ∧
      toSortingMap dao.ext input = .ok (none, some e2) ∧
      ∀ (storageId : String) (s : σ),
        dao.GdaoFetchOne storageId input s = .ok ((none, some e1), s) ∧
        dao.GdaoDeleteMany storageId input s = .ok ((0, some e1), s) ∧
        (∀ (sorting : GoVal) (k n : Int),
          dao.GdaoFetchMany storageId input sorting k n s = .ok (([], some e1), s)) ∧
        (∀ (filter : GoVal) (f : Option GoMap) (k n : Int),
          toMap dao.ext filter = .ok (f, none) →
          dao.GdaoFetchMany storageId filter input k n s = .ok (([], some e2), s)) := by
  obtain ⟨e1, h1⟩ := toMap_unsupported dao.ext input hnil hstr hmap hbytes hslice
  obtain ⟨e2, h2⟩ := toSortingMap_unsupported dao.ext input hnil hstr hmap hbytes hslice
  refine ⟨e1, e2, h1, h2, ?_⟩
  intro storageId s
  refine ⟨?_, ?_, ?_, ?_⟩
  · simp [GenericDaoMongo.GdaoFetchOne, h1]
  · simp [GenericDaoMongo.GdaoDeleteMany, h1]
  · intro sorting k n
    simp [GenericDaoMongo.GdaoFetchMany, h1]
  · intro filter f k n hf
    simp [GenericDaoMongo.GdaoFetchMany, hf, h2]

/-- The witness of C11: a pointer to a slice of integers as filter and as sorting. -/
theorem unsupported_encoding_is_error_witness :
    ∃ e1 e2 : Error,
      toMap demoExt (.ptr (some (.slice .int [.int 1]))) = .ok (none, some e1) ∧
      toSortingMap demoExt (.ptr (some (.slice .int [.int 1]))) = .ok (none, some e2) ∧
      ∀ (storageId : String) (s : MemStore),
        (demoDao (memConnect demoQuery) false).GdaoFetchOne storageId
          (.ptr (some (.slice .int [.int 1]))) s = .ok ((none, some e1), s) ∧
        (demoDao (memConnect demoQuery) false).GdaoDeleteMany storageId
          (.ptr (some (.slice .int [.int 1]))) s = .ok ((0, some e1), s) ∧
        (∀ (sorting : GoVal) (k n : Int),
          (demoDao (memConnect demoQuery) false).GdaoFetchMany storageId
            (.ptr (some (.slice .int [.int 1]))) sorting k n s = .ok (([], some e1), s)) ∧
        (∀ (filter : GoVal) (f : Option GoMap) (k n : Int),
          toMap demoExt filter = .ok (f, none) →
          (demoDao (memConnect demoQuery) false).GdaoFetchMany storageId filter
            (.ptr (some (.slice .int [.int 1]))) k n s = .ok (([], some e2), s)) :=
  unsupported_encoding_is_error (demoDao (memConnect demoQuery) false)
    (.ptr (some (.slice .int [.int 1]))) (by simp) (by simp [derefAll, kindOf])
    (by simp [derefAll, kindOf]) (by simp [derefAll])
    (by
      intro elem xs h
      simp only [derefAll, Option.some.injEq, GoVal.slice.injEq] at h
      obtain ⟨rfl, rfl⟩ := h
      exact ⟨.nil, .collaborator 1, rfl⟩)

/-! ### The generic business object and JSON -/

/-- C12. For a GBO whose attribute values belong to the data model of the spec, and whose JSON
text is read back as the document it was written for: `GboToJson` succeeds, and `GboFromJson` of
its text gives, without error, the GBO with the same attribute names (in the same order) and
with each value kept up to the coercion of numbers: an integer `i` comes back as `float64(i)`,
sequences and mappings keep their nesting. -/
theorem GboFromJson_GboToJson (T : JsonText) (b : GenericBo) (es : List (String × Json))
    (hspec : specValueEntries b.attrs = true)
    (hjson : jsonOfGoEntries b.attrs = some es)
    (htext : T.parse (T.print (.obj es)) = some (.obj es)) :
    b.GboToJson T = (T.print (.obj es), none) ∧
      NewGenericBo.GboFromJson T (b.GboToJson T).1 = (⟨jsonCoerceEntries b.attrs⟩, none) ∧
      (jsonCoerceEntries b.attrs).map Prod.fst = b.attrs.map Prod.fst := by
  have hto : b.GboToJson T = (T.print (.obj es), none) := by
    simp [GenericBo.GboToJson, jsonMarshal, jsonOfGo, hjson]
  have hco := goOfJsonEntries_jsonOfGoEntries b.attrs hspec
  rw [hjson] at hco
  simp only [Option.map_some', Option.some.injEq] at hco
  refine ⟨hto, ?_, jsonCoerceEntries_keys b.attrs⟩
  rw [hto]
  simp [GenericBo.GboFromJson, htext, hco]

/-- The witness of C12: the GBO with `id = "a"` and the integer `val = 1`. -/
theorem GboFromJson_GboToJson_witness :
    (demoGbo 1).GboToJson demoText
        = (demoText.print (.obj [("id", .str "a"), ("val", .num 1 0)]), none) ∧
      NewGenericBo.GboFromJson demoText ((demoGbo 1).GboToJson demoText).1
        = (⟨jsonCoerceEntries (demoGbo 1).attrs⟩, none) ∧
      (jsonCoerceEntries (demoGbo 1).attrs).map Prod.fst = (demoGbo 1).attrs.map Prod.fst :=
  GboFromJson_GboToJson demoText (demoGbo 1) [("id", .str "a"), ("val", .num 1 0)] rfl rfl rfl

/-! ### The row mapper of the document store -/

/-- The row of a non-nil BO that `ToRow` returns without error is a native map whose entries
were read from the members of an object. -/
lemma ToRow_shape (T : JsonText) (storageId : String) (b : GenericBo) (r : GoVal)
    (hrow : GenericRowMapperMongo.ToRow T storageId (some b) = (r, none)) :
    ∃ es : List (String × Json), r = .mapSI (goOfJsonEntries es) := by
  simp only [GenericRowMapperMongo.ToRow, GenericBo.GboTransferViaJson] at hrow
  rcases hto : b.GboToJson T with ⟨js, _ | err⟩
  · simp only [hto, jsonUnmarshalToMap] at hrow
    rcases hp : T.parse js with _ | j
    · simp [hp] at hrow
    · cases j <;> simp [hp] at hrow
      case null => exact ⟨[], by simp [← hrow, goOfJsonEntries]⟩
      case obj es => exact ⟨es, by simp [← hrow]⟩
  · simp [hto] at hrow

/-- The row that `ToBo` looks at behind a chain of non-nil pointers is the end of the chain. -/
lemma derefNonNil_ptrChain (depth : Nat) (v : GoVal) :
    derefNonNil (ptrChain depth v) = derefNonNil v := by
  induction depth with
  | zero => rfl
  | succ k ih => simpa [ptrChain, derefNonNil] using ih

/-- For `ToBo` a chain of non-nil pointers to a non-nil value is as good as the value. -/
lemma ToBo_ptrChain (E : Ext) (T : JsonText) (storageId : String) (depth : Nat) (v : GoVal)
    (hv : v ≠ .nil) :
    GenericRowMapperMongo.ToBo E T storageId (ptrChain depth v)
      = GenericRowMapperMongo.ToBo E T storageId v := by
  cases depth with
  | zero => rfl
  | succ k =>
    have hd : derefNonNil (.ptr (some (ptrChain k v))) = derefNonNil v := by
      simpa [derefNonNil] using derefNonNil_ptrChain k v
    cases v <;> first
      | exact absurd rfl hv
      | simp only [ptrChain, GenericRowMapperMongo.ToBo, hd]

/-- C13, amended. For a non-nil GBO `b` with `(r, nil) = ToRow(s, b)`: `r` is a native map, so
`ToBo(s, r)` returns a nil BO and the error of an unsupported row. `ToBo` given the JSON text of
`r` as a byte slice (which `reddo.ToSlice` keeps and the JSON library reads back) returns
no error and the BO whose attributes are exactly the entries of `r`. -/
theorem ToBo_of_ToRow (E : Ext) (T : JsonText) (storageId : String) (b : GenericBo)
    (r : GoVal)
    (hrow : GenericRowMapperMongo.ToRow T storageId (some b) = (r, none)) :
    GenericRowMapperMongo.ToBo E T storageId r = .ok (none, some .cannotConstruct) ∧
      ∀ j : Json, jsonOfGo r = some j → T.parse (T.print j) = some j →
        E.reddoToSlice (.bytes (T.print j)) typeOfByteSlice = .ok (.bytes (T.print j), none) →
        ∃ m : GoMap, r = .mapSI m ∧
          GenericRowMapperMongo.ToBo E T storageId (.bytes (T.print j))
            = .ok (some ⟨m⟩, none) := by
  obtain ⟨es, rfl⟩ := ToRow_shape T storageId b r hrow
  refine ⟨rfl, ?_⟩
  intro j hj htext hslice
  have hj2 : j = .obj es := by
    simp [jsonOfGo, jsonOfGoEntries_goOfJsonEntries] at hj
    exact hj.symm
  subst hj2
  refine ⟨goOfJsonEntries es, rfl, ?_⟩
  simp [GenericRowMapperMongo.ToBo, derefNonNil, toBoOfBytes, hslice, GenericBo.GboFromJson,
    htext]

/-- The witness of C13: the row of the GBO with `id = "a"` and `val = 1`, and its JSON text. -/
theorem ToBo_of_ToRow_witness :
    GenericRowMapperMongo.ToBo demoExt demoText "t" (.mapSI [("id", .str "a"), ("val", .float 1 0)])
        = .ok (none, some .cannotConstruct) ∧
      ∃ m : GoMap, GoVal.mapSI [("id", .str "a"), ("val", .float 1 0)] = .mapSI m ∧
        GenericRowMapperMongo.ToBo demoExt demoText "t"
            (.bytes (demoText.print (.obj [("id", .str "a"), ("val", .num 1 0)])))
          = .ok (some ⟨m⟩, none) :=
  ⟨(ToBo_of_ToRow demoExt demoText "t" (demoGbo 1)
      (.mapSI [("id", .str "a"), ("val", .float 1 0)]) rfl).1,
    (ToBo_of_ToRow demoExt demoText "t" (demoGbo 1)
      (.mapSI [("id", .str "a"), ("val", .float 1 0)]) rfl).2
      (.obj [("id", .str "a"), ("val", .num 1 0)]) rfl rfl rfl⟩

/-- The counterexample of C13: `ToRow` gives a native map without error, and `ToBo` of that row
is a nil BO with an error. -/
theorem ToBo_of_ToRow_counterexample :
    GenericRowMapperMongo.ToRow demoText "t" (some (demoGbo 1))
        = (.mapSI [("id", .str "a"), ("val", .float 1 0)], none) ∧
      GenericRowMapperMongo.ToBo demoExt demoText "t"
          (GenericRowMapperMongo.ToRow demoText "t" (some (demoGbo 1))).1
        = .ok (none, some .cannotConstruct) :=
  ⟨rfl, rfl⟩

/-- C14. For the text `j` of a JSON object (a text that the JSON library reads as an object, and
whose byte slice `reddo.ToSlice` keeps): `ToBo` given `j` as a string, as a byte slice or array,
or behind a chain of non-nil pointers of any depth to either, returns no error and the same BO,
the one that `GboFromJson` makes of `j`. -/
theorem ToBo_json_text_forms (E : Ext) (T : JsonText) (storageId : String) (j : String)
    (es : List (String × Json))
    (hobj : T.parse (stringBytes j) = some (.obj es))
    (hslice : E.reddoToSlice (.bytes (stringBytes j)) typeOfByteSlice
      = .ok (.bytes (stringBytes j), none)) :
    ∃ bo : GenericBo,
      NewGenericBo.GboFromJson T (stringBytes j) = (bo, none) ∧
      ∀ depth : Nat,
        GenericRowMapperMongo.ToBo E T storageId (ptrChain depth (.str j))
          = .ok (some bo, none) ∧
        GenericRowMapperMongo.ToBo E T storageId (ptrChain depth (.bytes (stringBytes j)))
          = .ok (some bo, none) := by
  refine ⟨⟨goOfJsonEntries es⟩, by simp [GenericBo.GboFromJson, hobj], ?_⟩
  intro depth
  rw [ToBo_ptrChain E T storageId depth (.str j) (by simp),
    ToBo_ptrChain E T storageId depth (.bytes (stringBytes j)) (by simp)]
  constructor
  · simp [GenericRowMapperMongo.ToBo, derefNonNil, GenericBo.GboFromJson, hobj]
  · simp [GenericRowMapperMongo.ToBo, derefNonNil, toBoOfBytes, hslice, GenericBo.GboFromJson,
      hobj]

/-- The witness of C14: the text of the object with `id = "a"` and `val = 1`. -/
theorem ToBo_json_text_forms_witness :
    ∃ bo : GenericBo,
      NewGenericBo.GboFromJson demoText (stringBytes "\x7b\"id\":\"a\",\"val\":1\x7d")
        = (bo, none) ∧
      ∀ depth : Nat,
        GenericRowMapperMongo.ToBo demoExt demoText "t"
            (ptrChain depth (.str "\x7b\"id\":\"a\",\"val\":1\x7d"))
          = .ok (some bo, none) ∧
        GenericRowMapperMongo.ToBo demoExt demoText "t"
            (ptrChain depth (.bytes (stringBytes "\x7b\"id\":\"a\",\"val\":1\x7d")))
          = .ok (some bo, none) :=
  ToBo_json_text_forms demoExt demoText "t" "\x7b\"id\":\"a\",\"val\":1\x7d"
    [("id", .str "a"), ("val", .num 1 0)] rfl rfl

/-- C15. For a non-nil row that, once the non-nil pointers are followed, is neither a string nor
a slice or array of bytes: `ToBo` returns a nil BO and the error of an unsupported row. -/
theorem ToBo_rejects_other_shapes (E : Ext) (T : JsonText) (storageId : String) (row : GoVal)
    (hnil : row ≠ .nil)
    (hstr : ∀ s : String, derefNonNil row ≠ .str s)
    (hbytes : ∀ b : Bytes, derefNonNil row ≠ .bytes b)
    (hslice : ∀ xs : List GoVal, derefNonNil row ≠ .slice .uint8 xs) :
    GenericRowMapperMongo.ToBo E T storageId row = .ok (none, some .cannotConstruct) := by
  have key : ∀ d : GoVal, (∀ s : String, d ≠ .str s) → (∀ b : Bytes, d ≠ .bytes b) →
      (∀ xs : List GoVal, d ≠ .slice .uint8 xs) →
      (match d with
        | .str s =>
          match NewGenericBo.GboFromJson T (stringBytes s) with
          | (bo, err) => .ok (some bo, err)
        | .bytes b => toBoOfBytes E T (.bytes b)
        | .slice elem xs =>
          if elem = .uint8 then toBoOfBytes E T (.slice elem xs)
          else .ok (none, some .cannotConstruct)
        | _ => .ok (none, some .cannotConstruct) :
          Except Panic (IGenericBo × Option Error))
        = .ok (none, some .cannotConstruct) := by
    intro d h1 h2 h3
    cases d <;> simp at h1 h2 h3 ⊢
    case slice elem xs =>
      intro he
      exact absurd he h3
  cases row <;> first
    | exact absurd rfl hnil
    | exact key _ hstr hbytes hslice

/-- The witness of C15: a native map behind a pointer. -/
theorem ToBo_rejects_other_shapes_witness :
    GenericRowMapperMongo.ToBo demoExt demoText "t" (.ptr (some (demoRow 1)))
      = .ok (none, some .cannotConstruct) :=
  ToBo_rejects_other_shapes demoExt demoText "t" (.ptr (some (demoRow 1))) (by simp)
    (by simp [derefNonNil, demoRow]) (by simp [derefNonNil, demoRow])
    (by simp [derefNonNil, demoRow])

/-- C16. The BO of a nil row is nil, without error. -/
theorem ToBo_nil (E : Ext) (T : JsonText) (storageId : String) :
    GenericRowMapperMongo.ToBo E T storageId .nil = .ok (none, none) :=
  rfl

/-- C17. For a typed nil pointer, for a pointer to a nil interface value, and for either behind
a chain of non-nil pointers of any depth, `ToBo` returns a nil BO together with the error of an
unsupported row, not with a nil error. -/
theorem ToBo_nil_pointer (E : Ext) (T : JsonText) (storageId : String) (depth : Nat) :
    GenericRowMapperMongo.ToBo E T storageId (ptrChain depth (.ptr none))
        = .ok (none, some .cannotConstruct) ∧
      GenericRowMapperMongo.ToBo E T storageId (ptrChain depth (.ptr (some (.iface .nil))))
        = .ok (none, some .cannotConstruct) := by
  rw [ToBo_ptrChain E T storageId depth (.ptr none) (by simp),
    ToBo_ptrChain E T storageId depth (.ptr (some (.iface .nil))) (by simp)]
  exact ⟨rfl, rfl⟩

/-- C18. The row of a nil BO is nil, without error. -/
theorem ToRow_nil (T : JsonText) (storageId : String) :
    GenericRowMapperMongo.ToRow T storageId none = (.nil, none) :=
  rfl

/-- C19. For a non-nil BO whose attributes have a JSON document and whose JSON text is read back
as that document: for every storage id `ToRow` returns, without error, the same native map; its
keys are the attribute names of the BO, unchanged and in the same order; the value under each
key is the attribute value as read back from JSON, which for values of the data model of the
spec is the value with its numbers coerced to `float64`. -/
theorem ToRow_structural_copy (T : JsonText) (b : GenericBo) (es : List (String × Json))
    (hjson : jsonOfGoEntries b.attrs = some es)
    (htext : T.parse (T.print (.obj es)) = some (.obj es)) :
    (∀ storageId : String,
        GenericRowMapperMongo.ToRow T storageId (some b)
          = (.mapSI (goOfJsonEntries es), none)) ∧
      (goOfJsonEntries es).map Prod.fst = b.attrs.map Prod.fst ∧
      (specValueEntries b.attrs = true → goOfJsonEntries es = jsonCoerceEntries b.attrs) := by
  refine ⟨?_, ?_, ?_⟩
  · intro storageId
    simp [GenericRowMapperMongo.ToRow, GenericBo.GboTransferViaJson, GenericBo.GboToJson,
      jsonMarshal, jsonOfGo, hjson, jsonUnmarshalToMap, htext]
  · rw [goOfJsonEntries_keys, jsonOfGoEntries_keys b.attrs es hjson]
  · intro hspec
    have hco := goOfJsonEntries_jsonOfGoEntries b.attrs hspec
    rw [hjson] at hco
    simpa using hco

/-- The witness of C19: the row of the GBO with `id = "a"` and `val = 2`. -/
theorem ToRow_structural_copy_witness :
    (∀ storageId : String,
        GenericRowMapperMongo.ToRow demoText storageId (some (demoGbo 2))
          = (.mapSI (goOfJsonEntries [("id", .str "a"), ("val", .num 2 0)]), none)) ∧
      (goOfJsonEntries [("id", .str "a"), ("val", .num 2 0)]).map Prod.fst
        = (demoGbo 2).attrs.map Prod.fst ∧
      goOfJsonEntries [("id", .str "a"), ("val", .num 2 0)]
        = jsonCoerceEntries (demoGbo 2).attrs :=
  ⟨(ToRow_structural_copy demoText (demoGbo 2) [("id", .str "a"), ("val", .num 2 0)] rfl rfl).1,
    (ToRow_structural_copy demoText (demoGbo 2) [("id", .str "a"), ("val", .num 2 0)] rfl rfl).2.1,
    (ToRow_structural_copy demoText (demoGbo 2) [("id", .str "a"), ("val", .num 2 0)] rfl rfl).2.2
      rfl⟩

/-- C20. The column list is the one-element list `["*"]` for every storage id. -/
theorem ColumnsList_all (storageId : String) :
    GenericRowMapperMongo.ColumnsList storageId = ["*"] ∧
      (GenericRowMapperMongo.ColumnsList storageId).length = 1 :=
  ⟨rfl, rfl⟩

/-! ### Lemmas on maps as association lists -/

/-- The keys after an assignment are the assigned key and the keys before. -/
lemma mapSet_keys (m : GoMap) (k0 : String) (v : GoVal) (k : String) :
    k ∈ (mapSet m k0 v).map Prod.fst ↔ k = k0 ∨ k ∈ m.map Prod.fst := by
  induction m with
  | nil => simp [mapSet]
  | cons e rest ih =>
    obtain ⟨k1, v1⟩ := e
    by_cases h : k1 = k0
    · subst h
      simp only [mapSet, if_true, List.map_cons, List.mem_cons]
      tauto
    · simp only [mapSet, if_neg h, List.map_cons, List.mem_cons, ih]
      tauto

/-- The assignment of a new key adds the entry at the end. -/
lemma mapSet_of_not_mem (m : GoMap) (k0 : String) (v : GoVal)
    (h : k0 ∉ m.map Prod.fst) : mapSet m k0 v = m ++ [(k0, v)] := by
  induction m with
  | nil => rfl
  | cons e rest ih =>
    obtain ⟨k1, v1⟩ := e
    have h1 : k1 ≠ k0 := by
      intro hk
      exact h (by simp [hk])
    have h2 : k0 ∉ rest.map Prod.fst := by
      intro hk
      exact h (by simp [hk])
    simp [mapSet, if_neg h1, ih h2]

/-- The keys of the map built from renamed entries are the keys of the start and the new names
of the entries. -/
lemma renameEntries_keys (rename : String → String) (es : List (String × GoVal)) :
    ∀ (acc : GoMap) (k : String),
      k ∈ (renameEntries rename es acc).map Prod.fst ↔
        k ∈ acc.map Prod.fst ∨ ∃ e ∈ es, rename e.1 = k := by
  induction es with
  | nil => intro acc k; simp [renameEntries]
  | cons e rest ih =>
    intro acc k
    obtain ⟨k1, v1⟩ := e
    simp only [renameEntries, ih, mapSet_keys, List.mem_cons, exists_eq_or_imp]
    constructor
    · rintro ((h | h) | h)
      · exact Or.inr (Or.inl h.symm)
      · exact Or.inl h
      · exact Or.inr (Or.inr h)
    · rintro (h | h | h)
      · exact Or.inl (Or.inr h)
      · exact Or.inl (Or.inl h.symm)
      · exact Or.inr h

/-- When the new names are distinct and new, the map built from renamed entries is the start
followed by the entries under their new names, in the same order. -/
lemma renameEntries_nodup (rename : String → String) (es : List (String × GoVal)) :
    ∀ acc : GoMap, (acc.map Prod.fst ++ es.map (fun e => rename e.1)).Nodup →
      renameEntries rename es acc = acc ++ es.map (fun e => (rename e.1, e.2)) := by
  induction es with
  | nil => intro acc _; simp [renameEntries]
  | cons e rest ih =>
    intro acc h
    obtain ⟨k1, v1⟩ := e
    have hnew : rename k1 ∉ acc.map Prod.fst := by
      intro hk
      rw [List.nodup_append] at h
      exact h.2.2 hk (by simp)
    have hnext : ((acc ++ [(rename k1, v1)]).map Prod.fst
        ++ rest.map (fun e => rename e.1)).Nodup := by
      simpa [List.append_assoc] using h
    simp only [renameEntries, mapSet_of_not_mem acc (rename k1) v1 hnew]
    rw [ih _ hnext]
    simp

/-- In a map with distinct keys, an entry is what the index expression gives for its key. -/
lemma mapGet_of_mem {β : Type} (l : List (String × β)) (k : String) (v : β)
    (hmem : (k, v) ∈ l) (hnodup : (l.map Prod.fst).Nodup) : mapGet l k = some v := by
  induction l with
  | nil => simp at hmem
  | cons e rest ih =>
    obtain ⟨k1, v1⟩ := e
    simp only [List.map_cons, List.nodup_cons] at hnodup
    rcases List.mem_cons.1 hmem with h | h
    · cases h
      simp [mapGet]
    · have hk : k1 ≠ k := by
        intro hk
        subst hk
        exact hnodup.1 (List.mem_map.2 ⟨(k1, v), h, rfl⟩)
      simp [mapGet, if_neg hk, ih h hnodup.2]

/-- The index expression gives nothing for a name that is not a key. -/
lemma mapGet_of_not_mem {β : Type} (l : List (String × β)) (k : String)
    (h : k ∉ l.map Prod.fst) : mapGet l k = none := by
  induction l with
  | nil => rfl
  | cons e rest ih =>
    obtain ⟨k1, v1⟩ := e
    have hk : k1 ≠ k := by
      intro hk
      exact h (by simp [hk])
    have hrest : k ∉ rest.map Prod.fst := by
      intro hr
      exact h (by simp [hr])
    simp [mapGet, if_neg hk, ih hrest]

/-! ### The row mapper of the relational stores -/

/-- Without a table, the name-translation policy is the default case transformation. -/
lemma translateName_none (t : NameTransformation) (name : String) :
    translateName t none name = transformName t name :=
  rfl

/-- Lower-casing works character by character: a letter from `A` to `Z` (code 65 to 90) becomes
the letter 32 codes further, from `a` to `z`, and every other character is kept. -/
lemma lowerCase_data (name : String) :
    (lowerCase name).data = name.data.map
      (fun c => if 65 ≤ c.toNat ∧ c.toNat ≤ 90 then Char.ofNat (c.toNat + 32) else c) :=
  rfl

/-- Upper-casing works character by character: a letter from `a` to `z` (code 97 to 122) becomes
the letter 32 codes before, from `A` to `Z`, and every other character is kept. -/
lemma upperCase_data (name : String) :
    (upperCase name).data = name.data.map
      (fun c => if 97 ≤ c.toNat ∧ c.toNat ≤ 122 then Char.ofNat (c.toNat - 32) else c) :=
  rfl

/-- C21. The column list of a storage id is the configured list, with the same elements in the
same order, when `ColumnsListMap` has an entry for it, and the one-element list `["*"]`
otherwise. -/
theorem ColumnsList_sql (mapper : GenericRowMapperSql) (storageId : String) :
    (∀ columns : List String, mapGet mapper.ColumnsListMap storageId = some columns →
        mapper.ColumnsList storageId = columns) ∧
      (mapGet mapper.ColumnsListMap storageId = none →
        mapper.ColumnsList storageId = ["*"]) := by
  constructor
  · intro columns h
    simp [GenericRowMapperSql.ColumnsList, h]
  · intro h
    simp [GenericRowMapperSql.ColumnsList, h]

/-- The witness of C21: the mapper of the tests, asked for `test` and for `dummy`. -/
theorem ColumnsList_sql_witness :
    (sqlTestMapper .NameTransfIntact [] []).ColumnsList "test" = ["col0", "col1", "col2"] ∧
      (sqlTestMapper .NameTransfIntact [] []).ColumnsList "dummy" = ["*"] :=
  ⟨(ColumnsList_sql (sqlTestMapper .NameTransfIntact [] []) "test").1 _ rfl,
    (ColumnsList_sql (sqlTestMapper .NameTransfIntact [] []) "dummy").2 rfl⟩

/-- The row that `ToBo` interprets behind a chain of non-nil pointers is the end of the chain. -/
lemma unwrapRow_ptrChain (depth : Nat) (v : GoVal) :
    unwrapRow (ptrChain depth v) = unwrapRow v := by
  induction depth with
  | zero => rfl
  | succ k ih => simpa [ptrChain, unwrapRow] using ih

/-- For the SQL row mapper a chain of non-nil pointers to a row is as good as the row. -/
lemma ToBo_sql_ptrChain (mapper : GenericRowMapperSql) (T : JsonText) (storageId : String)
    (depth : Nat) (v : GoVal) :
    mapper.ToBo T storageId (ptrChain depth v) = mapper.ToBo T storageId v := by
  simp only [GenericRowMapperSql.ToBo, unwrapRow_ptrChain]

/-- With the names intact and no table, a row with distinct column names becomes the BO with
the same entries. -/
lemma boOfMap_intact (mapper : GenericRowMapperSql) (storageId : String) (m : GoMap)
    (hintact : mapper.NameTransformation = .NameTransfIntact)
    (hnone : selectTable mapper.ColNameToGboFieldTranslator storageId = none)
    (hkeys : (m.map Prod.fst).Nodup) : mapper.boOfMap storageId m = ⟨m⟩ := by
  have h := renameEntries_nodup (translateName .NameTransfIntact none) m []
    (by simpa [translateName, transformName] using hkeys)
  simp only [GenericRowMapperSql.boOfMap, hintact, hnone, h]
  simp [translateName, transformName]

/-- C22, amended. With the names intact and no translation table for the storage id, for a row
`m` of type `map[string]interface{}` (its keys are distinct) whose JSON text is read back as
written: `ToBo` given `m`, or a chain of non-nil pointers of any depth to `m`, returns no error
and the BO whose attributes are exactly the entries of `m`; given the JSON text of `m` as a
byte slice or as a string, or pointers to these, it returns no error and the BO with the same
attribute names, each value as read from JSON, which is the value of `m` with its numbers
coerced to `float64` when the values belong to the data model of the spec. A name that is not a
key of `m` reads back as nil. -/
theorem ToBo_sql_forms (mapper : GenericRowMapperSql) (T : JsonText) (storageId : String)
    (m : GoMap) (es : List (String × Json))
    (hintact : mapper.NameTransformation = .NameTransfIntact)
    (hnone : selectTable mapper.ColNameToGboFieldTranslator storageId = none)
    (hkeys : (m.map Prod.fst).Nodup)
    (hjson : jsonOfGoEntries m = some es)
    (htext : T.parse (T.print (.obj es)) = some (.obj es))
    (hne : T.print (.obj es) ≠ []) :
    (∀ depth : Nat,
        mapper.ToBo T storageId (ptrChain depth (.mapSI m)) = (some ⟨m⟩, none) ∧
        mapper.ToBo T storageId (ptrChain depth (.bytes (T.print (.obj es))))
          = (some ⟨goOfJsonEntries es⟩, none) ∧
        ∀ text : String, stringBytes text = T.print (.obj es) →
          mapper.ToBo T storageId (ptrChain depth (.str text))
            = (some ⟨goOfJsonEntries es⟩, none)) ∧
      (goOfJsonEntries es).map Prod.fst = m.map Prod.fst ∧
      (specValueEntries m = true → goOfJsonEntries es = jsonCoerceEntries m) ∧
      ∀ (convert : GoVal → GoType → GoVal × Option Error) (name : String) (target : GoType),
        name ∉ m.map Prod.fst →
        GenericBo.GboGetAttrUnsafe convert ⟨m⟩ name target = .nil ∧
        GenericBo.GboGetAttrUnsafe convert ⟨goOfJsonEntries es⟩ name target = .nil := by
  have hk : (goOfJsonEntries es).map Prod.fst = m.map Prod.fst := by
    rw [goOfJsonEntries_keys, jsonOfGoEntries_keys m es hjson]
  have hbo : mapper.boOfMap storageId (goOfJsonEntries es) = ⟨goOfJsonEntries es⟩ :=
    boOfMap_intact mapper storageId _ hintact hnone (by rw [hk]; exact hkeys)
  have htxt : mapper.boOfText T storageId (T.print (.obj es))
      = (some ⟨goOfJsonEntries es⟩, none) := by
    simp [GenericRowMapperSql.boOfText, htext, hbo]
  refine ⟨?_, hk, ?_, ?_⟩
  · intro depth
    refine ⟨?_, ?_, ?_⟩
    · rw [ToBo_sql_ptrChain]
      simp [GenericRowMapperSql.ToBo, unwrapRow,
        boOfMap_intact mapper storageId m hintact hnone hkeys]
    · rw [ToBo_sql_ptrChain]
      cases hp : T.print (.obj es) with
      | nil => exact absurd hp hne
      | cons b rest =>
        rw [hp] at htxt
        simp [GenericRowMapperSql.ToBo, unwrapRow, htxt]
    · intro text ht
      rw [ToBo_sql_ptrChain]
      simp [GenericRowMapperSql.ToBo, unwrapRow, ht, htxt]
  · intro hspec
    have hco := goOfJsonEntries_jsonOfGoEntries m hspec
    rw [hjson] at hco
    simpa using hco
  · intro convert name target hname
    constructor
    · simp [GenericBo.GboGetAttrUnsafe, GenericBo.GboGetAttr, mapGet_of_not_mem m name hname]
    · simp [GenericBo.GboGetAttrUnsafe, GenericBo.GboGetAttr,
        mapGet_of_not_mem (goOfJsonEntries es) name (by rw [hk]; exact hname)]

/-- The witness of C22: the row with `id = "a"` and the integer `val = 1`, behind two pointers,
as a native map and as its JSON text. -/
theorem ToBo_sql_forms_witness :
    (sqlTestMapper .NameTransfIntact [] []).ToBo demoText "t"
        (ptrChain 2 (.mapSI [("id", .str "a"), ("val", .int 1)]))
        = (some ⟨[("id", .str "a"), ("val", .int 1)]⟩, none) ∧
      (sqlTestMapper .NameTransfIntact [] []).ToBo demoText "t"
        (ptrChain 2 (.bytes (demoText.print (.obj [("id", .str "a"), ("val", .num 1 0)]))))
        = (some ⟨goOfJsonEntries [("id", .str "a"), ("val", .num 1 0)]⟩, none) ∧
      goOfJsonEntries [("id", .str "a"), ("val", .num 1 0)]
        = jsonCoerceEntries [("id", .str "a"), ("val", .int 1)] :=
  ⟨((ToBo_sql_forms (sqlTestMapper .NameTransfIntact [] []) demoText "t"
      [("id", .str "a"), ("val", .int 1)] [("id", .str "a"), ("val", .num 1 0)] rfl rfl
      (by decide) rfl rfl (by decide)).1 2).1,
    ((ToBo_sql_forms (sqlTestMapper .NameTransfIntact [] []) demoText "t"
      [("id", .str "a"), ("val", .int 1)] [("id", .str "a"), ("val", .num 1 0)] rfl rfl
      (by decide) rfl rfl (by decide)).1 2).2.1,
    (ToBo_sql_forms (sqlTestMapper .NameTransfIntact [] []) demoText "t"
      [("id", .str "a"), ("val", .int 1)] [("id", .str "a"), ("val", .num 1 0)] rfl rfl
      (by decide) rfl rfl (by decide)).2.2.1 rfl⟩

/-- The counterexample of C22: for the row with the integer `val = 1`, `ToBo` of the JSON text
of the row does not give the BO whose attributes are exactly the entries of the row; `val` has
become a `float64`. -/
theorem ToBo_sql_forms_counterexample :
    (sqlTestMapper .NameTransfIntact [] []).ToBo demoText "t"
        (.bytes (jsonMarshal demoText (.mapSI [("id", .str "a"), ("val", .int 1)])).1)
        = (some ⟨[("id", .str "a"), ("val", .float 1 0)]⟩, none) ∧
      (sqlTestMapper .NameTransfIntact [] []).ToBo demoText "t"
        (.bytes (jsonMarshal demoText (.mapSI [("id", .str "a"), ("val", .int 1)])).1)
        ≠ (some ⟨[("id", .str "a"), ("val", .int 1)]⟩, none) := by
  have h : (sqlTestMapper .NameTransfIntact [] []).ToBo demoText "t"
      (.bytes (jsonMarshal demoText (.mapSI [("id", .str "a"), ("val", .int 1)])).1)
      = (some ⟨[("id", .str "a"), ("val", .float 1 0)]⟩, none) := rfl
  refine ⟨h, ?_⟩
  rw [h]
  simp

/-- C23. When `GboFieldToColNameTranslator` has no table for the storage id and none for the
wildcard: `ToRow` returns, without error, a native map whose keys are exactly the field names
of the BO under the configured case transformation; when the transformed names are distinct,
the row has one entry per field, in the same order, each carrying the value of the field, so as
many keys as the BO has fields. The transformation keeps the name under `NameTransfIntact`,
turns each letter `A`..`Z` into `a`..`z` under `NameTransfLowerCase` and each letter `a`..`z`
into `A`..`Z` under `NameTransfUpperCase`, and changes no other character. -/
theorem ToRow_sql_default (mapper : GenericRowMapperSql) (storageId : String) (b : GenericBo)
    (hexact : mapGet mapper.GboFieldToColNameTranslator storageId = none)
    (hwild : mapGet mapper.GboFieldToColNameTranslator "*" = none) :
    ∃ row : GoMap,
      mapper.ToRow storageId (some b) = (.mapSI row, none) ∧
      (∀ k : String, k ∈ row.map Prod.fst ↔
        ∃ e ∈ b.attrs, transformName mapper.NameTransformation e.1 = k) ∧
      ((b.attrs.map (fun e => transformName mapper.NameTransformation e.1)).Nodup →
        row = b.attrs.map (fun e => (transformName mapper.NameTransformation e.1, e.2)) ∧
        row.length = b.attrs.length) ∧
      (∀ name : String,
        transformName .NameTransfIntact name = name ∧
        (transformName .NameTransfLowerCase name).data = name.data.map
          (fun c => if 65 ≤ c.toNat ∧ c.toNat ≤ 90 then Char.ofNat (c.toNat + 32) else c) ∧
        (transformName .NameTransfUpperCase name).data = name.data.map
          (fun c => if 97 ≤ c.toNat ∧ c.toNat ≤ 122 then Char.ofNat (c.toNat - 32) else c)) := by
  have hsel : selectTable mapper.GboFieldToColNameTranslator storageId = none := by
    simp [selectTable, hexact, hwild]
  refine ⟨renameEntries (transformName mapper.NameTransformation) b.attrs [], ?_, ?_, ?_, ?_⟩
  · simp only [GenericRowMapperSql.ToRow, hsel]
    rfl
  · intro k
    simpa using renameEntries_keys (transformName mapper.NameTransformation) b.attrs [] k
  · intro hnodup
    have h := renameEntries_nodup (transformName mapper.NameTransformation) b.attrs []
      (by simpa using hnodup)
    rw [h]
    simp
  · intro name
    exact ⟨rfl, lowerCase_data name, upperCase_data name⟩

/-- The witness of C23: the three tests without translator, on the GBO with the fields `ColA`,
`colb`, `COLC` and `colD`: the keys are `cola`, `colb`, `colc`, `cold` in lower case, `COLA`,
`COLB`, `COLC`, `COLD` in upper case, and the field names themselves when intact. -/
theorem ToRow_sql_default_witness :
    (sqlTestMapper .NameTransfLowerCase [] []).ToRow "" (some sqlTestGbo)
        = (.mapSI [("cola", .float 1 0), ("colb", .str "a string"),
            ("colc", .float 2589569785738035 (-50)), ("cold", .bool true)], none) ∧
      (sqlTestMapper .NameTransfUpperCase [] []).ToRow "" (some sqlTestGbo)
        = (.mapSI [("COLA", .float 1 0), ("COLB", .str "a string"),
            ("COLC", .float 2589569785738035 (-50)), ("COLD", .bool true)], none) ∧
      (sqlTestMapper .NameTransfIntact [] []).ToRow "" (some sqlTestGbo)
        = (.mapSI [("ColA", .float 1 0), ("colb", .str "a string"),
            ("COLC", .float 2589569785738035 (-50)), ("colD", .bool true)], none) ∧
      (transformName .NameTransfLowerCase "ColA").data = ['c', 'o', 'l', 'a'] :=
  ⟨match ToRow_sql_default (sqlTestMapper .NameTransfLowerCase [] []) "" sqlTestGbo rfl rfl with
    | ⟨_, h1, _, h3, _⟩ =>
      h1.trans (congrArg (fun r => (GoVal.mapSI r, (none : Option Error))) (h3 (by decide)).1),
    match ToRow_sql_default (sqlTestMapper .NameTransfUpperCase [] []) "" sqlTestGbo rfl rfl with
    | ⟨_, h1, _, h3, _⟩ =>
      h1.trans (congrArg (fun r => (GoVal.mapSI r, (none : Option Error))) (h3 (by decide)).1),
    match ToRow_sql_default (sqlTestMapper .NameTransfIntact [] []) "" sqlTestGbo rfl rfl with
    | ⟨_, h1, _, h3, _⟩ =>
      h1.trans (congrArg (fun r => (GoVal.mapSI r, (none : Option Error))) (h3 (by decide)).1),
    match ToRow_sql_default (sqlTestMapper .NameTransfLowerCase [] []) "" sqlTestGbo rfl rfl with
    | ⟨_, _, _, _, h4⟩ => (h4 "ColA").2.1⟩

/-- C24, amended. When `GboFieldToColNameTranslator` has the table `table` for the storage id:
the keys of the row are exactly the column names of the fields of the BO, where the column name
of a field `f` is `table[t(f)]` if the transformed name `t(f)` is a key of the table and `t(f)`
otherwise; so `f` or `t(f)` is a key only when it is the column name of some field. When the
column names are distinct, every field whose transformed name is a key of the table appears
under `table[t(f)]` with its value unchanged. -/
theorem ToRow_sql_table (mapper : GenericRowMapperSql) (storageId : String) (b : GenericBo)
    (table : List (String × String))
    (hexact : mapGet mapper.GboFieldToColNameTranslator storageId = some table) :
    ∃ row : GoMap,
      mapper.ToRow storageId (some b) = (.mapSI row, none) ∧
      (∀ k : String, k ∈ row.map Prod.fst ↔
        ∃ e ∈ b.attrs, translateName mapper.NameTransformation (some table) e.1 = k) ∧
      ((b.attrs.map
          (fun e => translateName mapper.NameTransformation (some table) e.1)).Nodup →
        ∀ (f : String) (v : GoVal) (column : String), (f, v) ∈ b.attrs →
          mapGet table (transformName mapper.NameTransformation f) = some column →
          (column, v) ∈ row ∧ mapGet row column = some v) := by
  have hsel : selectTable mapper.GboFieldToColNameTranslator storageId = some table := by
    simp [selectTable, hexact]
  refine ⟨renameEntries (translateName mapper.NameTransformation (some table)) b.attrs [],
    ?_, ?_, ?_⟩
  · simp only [GenericRowMapperSql.ToRow, hsel]
  · intro k
    simpa using
      renameEntries_keys (translateName mapper.NameTransformation (some table)) b.attrs [] k
  · intro hnodup f v column hmem hcol
    have h := renameEntries_nodup (translateName mapper.NameTransformation (some table))
      b.attrs [] (by simpa using hnodup)
    simp only [List.nil_append] at h
    have hname : translateName mapper.NameTransformation (some table) f = column := by
      simp [translateName, hcol]
    have hin : (column, v) ∈ renameEntries
        (translateName mapper.NameTransformation (some table)) b.attrs [] := by
      rw [h]
      exact List.mem_map.2 ⟨(f, v), hmem, by simp [hname]⟩
    refine ⟨hin, mapGet_of_mem _ column v hin ?_⟩
    rw [h]
    simpa [List.map_map, Function.comp] using hnodup

/-- The witness of C24: the upper-case test with the table of `table_name`. -/
theorem ToRow_sql_table_witness :
    ∃ row : GoMap,
      (sqlTestMapper .NameTransfUpperCase [("table_name", sqlUpperTable)] []).ToRow
        "table_name" (some sqlTestGbo) = (.mapSI row, none) ∧
      (("a", GoVal.float 1 0) ∈ row ∧ mapGet row "a" = some (.float 1 0)) :=
  match ToRow_sql_table (sqlTestMapper .NameTransfUpperCase [("table_name", sqlUpperTable)] [])
      "table_name" sqlTestGbo sqlUpperTable rfl with
  | ⟨row, h1, _, h3⟩ =>
    ⟨row, h1, h3 (by decide) "ColA" (.float 1 0) "a" (by simp [sqlTestGbo]) rfl⟩

/-- The counterexample of C24: with the table that maps `id` to `id`, the field `id` is
translated through the table and still appears as a key of the row. -/
theorem ToRow_sql_table_counterexample :
    mapGet [("id", "id")] (transformName .NameTransfIntact "id") = some "id" ∧
      (sqlTestMapper .NameTransfIntact [("t", [("id", "id")])] []).ToRow "t"
        (some ⟨[("id", .str "a")]⟩) = (.mapSI [("id", .str "a")], none) ∧
      "id" ∈ ([("id", GoVal.str "a")] : GoMap).map Prod.fst :=
  ⟨rfl, rfl, by simp⟩

/-- C25. When `GboFieldToColNameTranslator` has no table for the storage id but one for the
wildcard `*`, `ToRow` translates with the table of the wildcard; when it has a table for the
storage id, that table is used, whatever the wildcard says. -/
theorem ToRow_sql_wildcard (mapper : GenericRowMapperSql) (storageId : String)
    (b : GenericBo) (table : List (String × String)) :
    (mapGet mapper.GboFieldToColNameTranslator storageId = none →
        mapGet mapper.GboFieldToColNameTranslator "*" = some table →
        mapper.ToRow storageId (some b)
          = (.mapSI (renameEntries (translateName mapper.NameTransformation (some table))
              b.attrs []), none)) ∧
      (mapGet mapper.GboFieldToColNameTranslator storageId = some table →
        mapper.ToRow storageId (some b)
          = (.mapSI (renameEntries (translateName mapper.NameTransformation (some table))
              b.attrs []), none)) := by
  constructor
  · intro hexact hwild
    simp [GenericRowMapperSql.ToRow, selectTable, hexact, hwild]
  · intro hexact
    simp [GenericRowMapperSql.ToRow, selectTable, hexact]

/-- The witness of C25: the scenario of the spec, the wildcard table from `colA` to `a` and the
source `colA = 1`; and the same source with a table for the storage id next to the wildcard. -/
theorem ToRow_sql_wildcard_witness :
    (sqlTestMapper .NameTransfIntact [("*", [("colA", "a")])] []).ToRow "s"
        (some ⟨[("colA", .float 1 0)]⟩) = (.mapSI [("a", .float 1 0)], none) ∧
      (sqlTestMapper .NameTransfIntact [("*", [("colA", "a")]), ("s", [("colA", "b")])] []).ToRow
        "s" (some ⟨[("colA", .float 1 0)]⟩) = (.mapSI [("b", .float 1 0)], none) :=
  ⟨(ToRow_sql_wildcard (sqlTestMapper .NameTransfIntact [("*", [("colA", "a")])] []) "s"
      ⟨[("colA", .float 1 0)]⟩ [("colA", "a")]).1 rfl rfl,
    (ToRow_sql_wildcard
      (sqlTestMapper .NameTransfIntact [("*", [("colA", "a")]), ("s", [("colA", "b")])] []) "s"
      ⟨[("colA", .float 1 0)]⟩ [("colA", "b")]).2 rfl⟩

/-- C26. For a row given as a native map whose columns get distinct attribute names: `ToBo`
returns, without error, the BO with one attribute per column, named `table[t(c)]` when the
table selected for the storage id from `ColNameToGboFieldTranslator` (the one of the exact id,
else the one of `*`) has the key `t(c)`, and `t(c)` otherwise; the value of the attribute is the
value of the column, and a read with coercion gives the coercion of that value. The
transformation `t` keeps the name under `NameTransfIntact`, turns each letter `A`..`Z` into
`a`..`z` under `NameTransfLowerCase` and each letter `a`..`z` into `A`..`Z` under
`NameTransfUpperCase`, and changes no other character. -/
theorem ToBo_sql_naming (mapper : GenericRowMapperSql) (T : JsonText) (storageId : String)
    (m : GoMap)
    (hnodup : (m.map (fun e => translateName mapper.NameTransformation
      (selectTable mapper.ColNameToGboFieldTranslator storageId) e.1)).Nodup) :
    ∃ bo : GenericBo,
      mapper.ToBo T storageId (.mapSI m) = (some bo, none) ∧
      bo.attrs = m.map (fun e => (translateName mapper.NameTransformation
        (selectTable mapper.ColNameToGboFieldTranslator storageId) e.1, e.2)) ∧
      (∀ (c : String) (v : GoVal), (c, v) ∈ m →
        ∀ (convert : GoVal → GoType → GoVal × Option Error) (target : GoType),
          bo.GboGetAttr convert (translateName mapper.NameTransformation
            (selectTable mapper.ColNameToGboFieldTranslator storageId) c) target
            = convert v target) ∧
      (∀ (table : List (String × String)) (c : String),
        selectTable mapper.ColNameToGboFieldTranslator storageId = some table →
        (∀ field : String, mapGet table (transformName mapper.NameTransformation c) = some field →
          translateName mapper.NameTransformation (some table) c = field) ∧
        (mapGet table (transformName mapper.NameTransformation c) = none →
          translateName mapper.NameTransformation (some table) c
            = transformName mapper.NameTransformation c)) ∧
      (∀ table : List (String × String),
        (mapGet mapper.ColNameToGboFieldTranslator storageId = some table →
          selectTable mapper.ColNameToGboFieldTranslator storageId = some table) ∧
        (mapGet mapper.ColNameToGboFieldTranslator storageId = none →
          selectTable mapper.ColNameToGboFieldTranslator storageId
            = mapGet mapper.ColNameToGboFieldTranslator "*")) ∧
      (selectTable mapper.ColNameToGboFieldTranslator storageId = none →
        bo.attrs = m.map (fun e => (transformName mapper.NameTransformation e.1, e.2))) ∧
      (∀ name : String,
        transformName .NameTransfIntact name = name ∧
        (transformName .NameTransfLowerCase name).data = name.data.map
          (fun c => if 65 ≤ c.toNat ∧ c.toNat ≤ 90 then Char.ofNat (c.toNat + 32) else c) ∧
        (transformName .NameTransfUpperCase name).data = name.data.map
          (fun c => if 97 ≤ c.toNat ∧ c.toNat ≤ 122 then Char.ofNat (c.toNat - 32) else c)) := by
  have h := renameEntries_nodup (translateName mapper.NameTransformation
    (selectTable mapper.ColNameToGboFieldTranslator storageId)) m [] (by simpa using hnodup)
  simp only [List.nil_append] at h
  refine ⟨mapper.boOfMap storageId m, ?_, ?_, ?_, ?_, ?_, ?_, ?_⟩
  · simp [GenericRowMapperSql.ToBo, unwrapRow]
  · simp only [GenericRowMapperSql.boOfMap, h]
  · intro c v hmem convert target
    have hin : (translateName mapper.NameTransformation
        (selectTable mapper.ColNameToGboFieldTranslator storageId) c, v)
        ∈ (mapper.boOfMap storageId m).attrs := by
      simp only [GenericRowMapperSql.boOfMap, h]
      exact List.mem_map.2 ⟨(c, v), hmem, rfl⟩
    have hget := mapGet_of_mem _ _ v hin (by
      simp only [GenericRowMapperSql.boOfMap, h]
      simpa [List.map_map, Function.comp] using hnodup)
    simp [GenericBo.GboGetAttr, hget]
  · intro table c _
    constructor
    · intro field hf
      simp [translateName, hf]
    · intro hf
      simp [translateName, hf]
  · intro table
    constructor
    · intro ht
      simp [selectTable, ht]
    · intro ht
      simp [selectTable, ht]
  · intro hsel
    simp only [GenericRowMapperSql.boOfMap, h]
    rw [hsel]
    rfl
  · intro name
    exact ⟨rfl, lowerCase_data name, upperCase_data name⟩

/-- The witness of C26: the row of the tests with the columns `ColA`, `colb`, `COLC` and `colD`.
Without translator the attributes are `cola`, `colb`, `colc`, `cold` in lower case and `COLA`,
`COLB`, `COLC`, `COLD` in upper case; with the lower-case table of `table_name` and with the
upper-case table of `table_name` they are `a`, `b`, `c`, `d`; the first one reads as the
`int` 1. -/
theorem ToBo_sql_naming_witness :
    (∃ bo : GenericBo,
      (sqlTestMapper .NameTransfLowerCase [] []).ToBo demoText "" (.mapSI sqlTestRow)
        = (some bo, none) ∧
      bo.attrs = [("cola", .float 1 0), ("colb", .str "a string"),
        ("colc", .float 2589569785738035 (-50)), ("cold", .bool true)] ∧
      bo.GboGetAttr demoConvert "cola" .int = (.int 1, none)) ∧
    (∃ bo : GenericBo,
      (sqlTestMapper .NameTransfUpperCase [] []).ToBo demoText "" (.mapSI sqlTestRow)
        = (some bo, none) ∧
      bo.attrs = [("COLA", .float 1 0), ("COLB", .str "a string"),
        ("COLC", .float 2589569785738035 (-50)), ("COLD", .bool true)] ∧
      bo.GboGetAttr demoConvert "COLA" .int = (.int 1, none)) ∧
    (∃ bo : GenericBo,
      (sqlTestMapper .NameTransfLowerCase [] [("table_name", sqlLowerTable)]).ToBo demoText
        "table_name" (.mapSI sqlTestRow) = (some bo, none) ∧
      bo.attrs = [("a", .float 1 0), ("b", .str "a string"),
        ("c", .float 2589569785738035 (-50)), ("d", .bool true)] ∧
      bo.GboGetAttr demoConvert "a" .int = (.int 1, none)) ∧
    (∃ bo : GenericBo,
      (sqlTestMapper .NameTransfUpperCase [] [("table_name", sqlUpperTable)]).ToBo demoText
        "table_name" (.mapSI sqlTestRow) = (some bo, none) ∧
      bo.attrs = [("a", .float 1 0), ("b", .str "a string"),
        ("c", .float 2589569785738035 (-50)), ("d", .bool true)] ∧
      bo.GboGetAttr demoConvert "a" .int = (.int 1, none)) :=
  ⟨match ToBo_sql_naming (sqlTestMapper .NameTransfLowerCase [] []) demoText "" sqlTestRow
      (by decide) with
    | ⟨bo, h1, h2, h3, _, _, _, _⟩ =>
      ⟨bo, h1, h2, h3 "ColA" (.float 1 0) (by simp [sqlTestRow, sqlTestGbo]) demoConvert .int⟩,
    match ToBo_sql_naming (sqlTestMapper .NameTransfUpperCase [] []) demoText "" sqlTestRow
      (by decide) with
    | ⟨bo, h1, h2, h3, _, _, _, _⟩ =>
      ⟨bo, h1, h2, h3 "ColA" (.float 1 0) (by simp [sqlTestRow, sqlTestGbo]) demoConvert .int⟩,
    match ToBo_sql_naming (sqlTestMapper .NameTransfLowerCase [] [("table_name", sqlLowerTable)])
      demoText "table_name" sqlTestRow (by decide) with
    | ⟨bo, h1, h2, h3, _, _, _, _⟩ =>
      ⟨bo, h1, h2, h3 "ColA" (.float 1 0) (by simp [sqlTestRow, sqlTestGbo]) demoConvert .int⟩,
    match ToBo_sql_naming (sqlTestMapper .NameTransfUpperCase [] [("table_name", sqlUpperTable)])
      demoText "table_name" sqlTestRow (by decide) with
    | ⟨bo, h1, h2, h3, _, _, _, _⟩ =>
      ⟨bo, h1, h2, h3 "ColA" (.float 1 0) (by simp [sqlTestRow, sqlTestGbo]) demoConvert .int⟩⟩

/-! ### The query options -/

/-- C27. `MongoFetchMany` calls `Find` with the filter it was given, nil included, and with
options in which the limit is set, to `numItems`, exactly when `numItems > 0`, the skip is set,
to `startOffset`, exactly when `startOffset > 0`, and the sort is set, to the sorting map,
exactly when that map is neither nil nor empty. A nil filter is normalized to the nil map. -/
theorem MongoFetchMany_options (dao : GenericDaoMongo σ) (collectionName : String)
    (filter : Option GoMap) (sorting : Option SortMap) (startOffset numItems : Int) (s : σ) :
    dao.MongoFetchMany collectionName filter sorting startOffset numItems s
        = dao.mongoConnect.find s collectionName filter
          (findOptionsOf sorting startOffset numItems) ∧
      ((findOptionsOf sorting startOffset numItems).limit = some numItems ↔ 0 < numItems) ∧
      ((findOptionsOf sorting startOffset numItems).limit = none ↔ numItems ≤ 0) ∧
      ((findOptionsOf sorting startOffset numItems).skip = some startOffset ↔
        0 < startOffset) ∧
      ((findOptionsOf sorting startOffset numItems).skip = none ↔ startOffset ≤ 0) ∧
      (∀ m : SortMap, (findOptionsOf sorting startOffset numItems).sort = some m ↔
        sorting = some m ∧ m ≠ []) ∧
      ((findOptionsOf sorting startOffset numItems).sort = none ↔
        sorting = none ∨ sorting = some []) ∧
      toMap dao.ext .nil = .ok (none, none) := by
  refine ⟨rfl, ?_, ?_, ?_, ?_, ?_, ?_, rfl⟩
  · by_cases h : 0 < numItems <;> simp [findOptionsOf, int64OfInt, h]
  · by_cases h : 0 < numItems <;> simp [findOptionsOf, int64OfInt, h]
    omega
  · by_cases h : 0 < startOffset <;> simp [findOptionsOf, int64OfInt, h]
  · by_cases h : 0 < startOffset <;> simp [findOptionsOf, int64OfInt, h]
    omega
  · intro m
    cases sorting with
    | none => simp [findOptionsOf]
    | some x =>
      cases x with
      | nil => simp [findOptionsOf]
      | cons a rest =>
        simp only [findOptionsOf, List.length_cons, gt_iff_lt, Nat.zero_lt_succ, if_true,
          Option.some.injEq]
        constructor
        · intro h
          exact ⟨h, by rw [← h]; simp⟩
        · intro h
          exact h.1
  · cases sorting with
    | none => simp [findOptionsOf]
    | some x =>
      cases x with
      | nil => simp [findOptionsOf]
      | cons a rest => simp [findOptionsOf]

/-! ### Results next to errors -/

/-- C28. In transaction mode, when the session and the transaction start, the insert is issued
and the commit fails with `e`, `GdaoCreate` returns the error `e` together with the count 1,
not 0. -/
theorem GdaoCreate_commit_failure (dao : GenericDaoMongo σ) (storageId : String)
    (bo : IGenericBo) (s s1 s2 s3 s4 : σ) (e : Error)
    (htx : dao.txMode = true)
    (hsession : dao.mongoConnect.startSession s = (none, s1))
    (hstart : dao.mongoConnect.startTransaction s1 = (none, s2))
    (hinsert : dao.insertIfNotExist storageId bo s2 = .ok ((true, none), s3))
    (hcommit : dao.mongoConnect.commitTransaction s3 = (some e, s4)) :
    dao.GdaoCreate storageId bo s = .ok ((1, some e), dao.mongoConnect.endSession s4) := by
  simp [GenericDaoMongo.GdaoCreate, htx, hsession, hstart, hinsert, hcommit]

/-- The witness of C28: a new BO is created in transaction mode on a driver whose commit
fails. -/
theorem GdaoCreate_commit_failure_witness :
    (demoDao (commitFailingConnect demoQuery (.collaborator 112)) true).GdaoCreate "t"
        (demoBo 1) []
      = .ok ((1, some (.collaborator 112)), [("t", demoRow 1)]) :=
  GdaoCreate_commit_failure (demoDao (commitFailingConnect demoQuery (.collaborator 112)) true)
    "t" (demoBo 1) [] [] [] [("t", demoRow 1)] [("t", demoRow 1)] (.collaborator 112)
    rfl rfl rfl rfl rfl

/-- C29. For a string row that is not well-formed JSON, `ToBo` returns the JSON error together
with a non-nil BO, the new and empty one; for a BO whose attributes `json.Marshal` does not
support, `ToRow` returns the error together with a non-nil row, the empty map. -/
theorem RowMapperMongo_result_with_error (E : Ext) (T : JsonText) (storageId : String)
    (text : String) (b : GenericBo)
    (hparse : T.parse (stringBytes text) = none)
    (hjson : jsonOfGoEntries b.attrs = none) :
    GenericRowMapperMongo.ToBo E T storageId (.str text)
        = .ok (some NewGenericBo, some jsonSyntaxError) ∧
      GenericRowMapperMongo.ToRow T storageId (some b)
        = (.mapSI [], some jsonUnsupportedTypeError) := by
  constructor
  · simp [GenericRowMapperMongo.ToBo, derefNonNil, GenericBo.GboFromJson, hparse]
  · simp [GenericRowMapperMongo.ToRow, GenericBo.GboTransferViaJson, GenericBo.GboToJson,
      jsonMarshal, jsonOfGo, hjson]

/-- The witness of C29: the row `oops` and the BO with a `map[bool]string` attribute. -/
theorem RowMapperMongo_result_with_error_witness :
    GenericRowMapperMongo.ToBo demoExt demoText "t" (.str "oops")
        = .ok (some NewGenericBo, some jsonSyntaxError) ∧
      GenericRowMapperMongo.ToRow demoText "t" (some unsupportedGbo)
        = (.mapSI [], some jsonUnsupportedTypeError) :=
  RowMapperMongo_result_with_error demoExt demoText "t" "oops" unsupportedGbo rfl rfl

/-- C30. For an input of kind map whose conversion by `reddo.ToMap` fails, with a nil result
and an error, `toSortingMap` and `toMap` do not return the error: the type assertion on the nil
result fails. -/
theorem toMap_failed_conversion (E : Ext) (vs vm : GoVal) (es em : Error)
    (hks : kindOf (some vs) = .map) (hkm : kindOf (some vm) = .map)
    (hs : E.reddoToMap vs typeOfMapStringInt = .ok (.nil, some es))
    (hm : E.reddoToMap vm typeOfMapStringInterface = .ok (.nil, some em)) :
    toSortingMap E vs = .error .typeAssertion ∧ toMap E vm = .error .typeAssertion := by
  constructor
  · cases vs <;> simp [kindOf] at hks <;> simp [toSortingMap, derefAll, hs]
  · cases vm <;> simp [kindOf] at hkm <;> simp [toMap, derefAll, hm]

/-- The witness of C30: a sorting map with a string value, and a filter map with bool keys. -/
theorem toMap_failed_conversion_witness :
    toSortingMap demoExt (.mapSI [("name", .str "asc")]) = .error .typeAssertion ∧
      toMap demoExt (.mapOther .bool .string [(.bool true, .str "x")])
        = .error .typeAssertion :=
  toMap_failed_conversion demoExt (.mapSI [("name", .str "asc")])
    (.mapOther .bool .string [(.bool true, .str "x")]) (.collaborator 2) (.collaborator 2)
    rfl rfl rfl rfl

end Godal
